import Mathlib

/-!
A shallow embedding of the Memory Scramble board (src/lab3-fresh/src/board.ts)
and proofs of its specified properties.

The board code is written against a cooperative single-scheduler model
(async/await, no preemption inside a synchronous block), so each public
operation is embedded as a pure state-transition function.  A point where the
code would suspend (awaiting a Deferred inside waitForCardAvailable, or the
watch loop) is modelled by an explicit outcome, and wake-up notifications
(notifyCardAvailable / notifyWatchers) are recorded in an event log.

The classes Card and Player are imported by board.ts from card.ts / player.ts,
which are not part of the sources; their observable behaviour is fixed by the
spec (section 3 and the design notes) and by the unit tests in
test/commands.test.ts and test/player.test.ts.
-/

namespace Scramble

/-- Modelled from the spec: the Card record of card.ts (absent from the
sources).  Spec section 3: a card is `{ value: string, faceUp: bool,
busy: bool }`; the tests construct cards as `new Card(value, faceUp, busy)`. -/
structure Card where
  value : String
  faceUp : Bool
  busy : Bool
deriving DecidableEq, Repr

/-- Modelled from the spec: Card.getValue of card.ts (absent from the
sources).  Design note in spec section 9 and the unit tests: the getter
returns the value when the card is face up and undefined when face down. -/
def Card.getValue (c : Card) : Option String :=
  if c.faceUp then some c.value else none

/-- A position on the board (type Position in board.ts). -/
structure Pos where
  row : Nat
  col : Nat
deriving DecidableEq, Repr

/-- Lookup in an association list keyed by player id.  Embeds reading the
Map fields playerTurnStack / removalQueue of Board (the JS maps are keyed
by Player objects; board operations always resolve a player id to the one
Player object stored in `players`, so keying by id is equivalent). -/
def getAssoc : List (String × List Pos) → String → Option (List Pos)
  | [], _ => none
  | kv :: rest, k => if kv.fst == k then some kv.snd else getAssoc rest k

/-- Update (or insert) in an association list keyed by player id; embeds
Map.prototype.set / in-place mutation of the stored array. -/
def setAssoc (l : List (String × List Pos)) (k : String) (v : List Pos) :
    List (String × List Pos) :=
  match l with
  | [] => [(k, v)]
  | kv :: rest => if kv.fst == k then (k, v) :: rest else kv :: setAssoc rest k v

/-- The mutable state owned by a Board instance. -/
structure BoardState where
  rows : Nat
  cols : Nat
  /-- Flat array of cards, indexed by row * cols + col; none = empty space. -/
  cards : List (Option Card)
  /-- ids of all players who have interacted with the board. -/
  players : List String
  /-- per-player turn stack (playerTurnStack). -/
  turnStack : List (String × List Pos)
  /-- per-player removal backlog (removalQueue). -/
  removalQueue : List (String × List Pos)
deriving DecidableEq, Repr

/-- Notifications emitted by board operations: `wakeCell pos` embeds
notifyCardAvailable(pos.row, pos.col) (resolving the front waiter of the
per-cell queue), `broadcast` embeds notifyWatchers() (resolving every
pending watcher). -/
inductive BoardEv where
  | wakeCell : Pos → BoardEv
  | broadcast : BoardEv
deriving DecidableEq, Repr

/-- getCards(row, column) of board.ts: flat lookup
`this.cards[row * this.size.col + column]` followed by `card ?? undefined`.
Out-of-array indices yield undefined (none), as in JS. -/
def getCards (s : BoardState) (row col : Nat) : Option Card :=
  (s.cards.get? (row * s.cols + col)).join

/-- Mutate the card stored at (row, col) in place, if one is present; embeds
calling a setter on the object returned by getCards. -/
def updateCard (s : BoardState) (row col : Nat) (f : Card → Card) : BoardState :=
  match s.cards.get? (row * s.cols + col) with
  | some (some c) =>
    { s with cards := s.cards.set (row * s.cols + col) (some (f c)) }
  | _ => s

/-- removeCard of board.ts: clear the slot, notify waiters for the cell and
broadcast a change. -/
def removeCard (s : BoardState) (row col : Nat) : BoardState × List BoardEv :=
  ({ s with cards := s.cards.set (row * s.cols + col) none },
   [.wakeCell ⟨row, col⟩, .broadcast])

/-- The current turn stack of a player (empty if the map has no entry). -/
def stackOf (s : BoardState) (p : String) : List Pos :=
  (getAssoc s.turnStack p).getD []

/-- The current removal backlog of a player (empty if the map has no entry). -/
def queueOf (s : BoardState) (p : String) : List Pos :=
  (getAssoc s.removalQueue p).getD []

/-- Replace a player turn stack (in-place mutation of the stored array, or
Map.set). -/
def setStack (s : BoardState) (p : String) (v : List Pos) : BoardState :=
  { s with turnStack := setAssoc s.turnStack p v }

/-- Replace a player removal queue (in-place mutation of the stored array, or
Map.set). -/
def setQueue (s : BoardState) (p : String) (v : List Pos) : BoardState :=
  { s with removalQueue := setAssoc s.removalQueue p v }

/-- Append a player id to the players array. -/
def pushPlayer (s : BoardState) (p : String) : BoardState :=
  { s with players := s.players ++ [p] }

/-- Append positions to a player removal queue, only when the map already has
an entry for the player (board.ts guards each push with
`if (removalQueue !== undefined)`). -/
def pushRemoval (s : BoardState) (p : String) (ps : List Pos) : BoardState :=
  match getAssoc s.removalQueue p with
  | some q => setQueue s p (q ++ ps)
  | none => s

/-- addPlayer of board.ts: record the player and initialize their turn stack
and removal queue. -/
def addPlayer (s : BoardState) (p : String) : BoardState :=
  setQueue (setStack (pushPlayer s p) p []) p []

/-- preprocessWaitForCardAvailable of board.ts.  Returns the error thrown (if
any) together with the state and notifications at that point; mutations made
before a throw persist, exactly as in the code. -/
def preprocess (s : BoardState) (p : String) (row col : Nat) :
    Option String × BoardState × List BoardEv :=
  let card := getCards s row col
  match getAssoc s.turnStack p with
  | none => (some "There is no player stack", s, [])
  | some stack =>
    match card with
    | none =>
      match stack with
      | [] => (none, s, [])
      | pos :: rest =>
        let s1 := setStack s p rest
        let s2 := updateCard s1 pos.row pos.col (fun c => { c with busy := false })
        let s3 := pushRemoval s2 p [pos]
        (some "Card not found", s3, [.wakeCell pos, .broadcast])
    | some c =>
      if stack.length == 1 then
        let isBusyByMe := stack.any (fun pos => pos.row == row && pos.col == col)
        if isBusyByMe then (none, s, [])
        else if !c.busy then (none, s, [])
        else
          match stack with
          | [] => (none, s, [])
          | pos :: rest =>
            let s1 := setStack s p rest
            let s2 := updateCard s1 pos.row pos.col (fun c => { c with busy := false })
            let s3 := pushRemoval s2 p [pos]
            (some "The card is not available", s3, [.wakeCell pos, .broadcast])
      else (none, s, [])

/-- The loop body of processPreviousPair draining one player removal queue:
for each backlogged position, if the card is still on the board and is not
busy, turn it face down, clear busy, and notify the waiters of that cell. -/
def drainBacklog (s : BoardState) : List Pos → BoardState × List BoardEv
  | [] => (s, [])
  | pos :: rest =>
    match getCards s pos.row pos.col with
    | some c =>
      if !c.busy then
        let s1 := updateCard s pos.row pos.col
          (fun c => { c with faceUp := false, busy := false })
        let dd := drainBacklog s1 rest
        (dd.1, .wakeCell pos :: dd.2)
      else
        drainBacklog s rest
    | none => drainBacklog s rest

/-- processPreviousPair of board.ts: drain the removal backlog, then, if the
turn stack still holds a (matched) pair whose cards are both on the board,
remove both cards. -/
def processPreviousPair (s : BoardState) (p : String) : BoardState × List BoardEv :=
  let d :=
    match getAssoc s.removalQueue p with
    | some q => drainBacklog (setQueue s p []) q
    | none => (s, [])
  let s1 := d.1
  let evs1 := d.2
  match getAssoc s1.turnStack p with
  | none => (s1, evs1)
  | some stack =>
    if stack.length < 2 then (s1, evs1)
    else
      match stack with
      | first :: second :: rest =>
        let s2 := setStack s1 p rest
        match getCards s2 first.row first.col, getCards s2 second.row second.col with
        | some _, some _ =>
          let rc1 := removeCard s2 first.row first.col
          let rc2 := removeCard rc1.1 second.row second.col
          (rc2.1, evs1 ++ rc1.2 ++ rc2.2)
        | _, _ => (s2, evs1)
      | _ => (s1, evs1)

/-- processRemovalQueue of board.ts: delete every occurrence of the given
position from every player removal queue. -/
def processRemovalQueue (s : BoardState) (row col : Nat) : BoardState :=
  let rq := s.removalQueue.map
    (fun kv => (kv.fst, kv.snd.filter (fun pos => !(pos.row == row && pos.col == col))))
  { s with removalQueue := rq }

/-- processStack of board.ts: if the turn stack holds a pair, compare the two
card values (via getValue); on a mismatch move both positions to the removal
queue, clear their busy flags and notify their waiters; on a match push both
positions back onto the stack. -/
def processStack (s : BoardState) (p : String) : BoardState × List BoardEv :=
  match getAssoc s.turnStack p with
  | none => (s, [])
  | some stack =>
    if stack.length < 2 then (s, [])
    else
      match stack with
      | first :: second :: rest =>
        let s1 := setStack s p rest
        match getCards s1 first.row first.col, getCards s1 second.row second.col with
        | some fc, some sc =>
          if fc.getValue != sc.getValue then
            let s2 := pushRemoval s1 p [first, second]
            let s3 := updateCard s2 first.row first.col (fun c => { c with busy := false })
            let s4 := updateCard s3 second.row second.col (fun c => { c with busy := false })
            (s4, [.wakeCell first, .wakeCell second])
          else
            (setStack s1 p (second :: first :: rest), [])
        | _, _ => (s1, [])
      | _ => (s, [])

/-- The guard of waitForCardAvailable: true when the loop would return at
once (the card is gone or not busy), false when the caller would suspend on
the per-cell wait queue. -/
def cardFreeOrGone (s : BoardState) (row col : Nat) : Bool :=
  match getCards s row col with
  | none => true
  | some c => !c.busy

/-- Outcome of a flip call in the sequential model: it returns normally,
throws an error, or suspends inside waitForCardAvailable (in which case the
paired state is the state at the moment of suspension). -/
inductive FlipOutcome where
  | ok
  | err : String → FlipOutcome
  | suspended
deriving DecidableEq, Repr

/-- flip of board.ts, run to completion or to its first suspension point. -/
def flip (s : BoardState) (playerId : String) (row col : Nat) :
    FlipOutcome × BoardState × List BoardEv :=
  if playerId ∈ s.players then
    let isTheSecondCard := (getAssoc s.turnStack playerId).map List.length == some 1
    let pr :=
      if isTheSecondCard then preprocess s playerId row col
      else (none, s, [])
    let s1 := pr.2.1
    let evs1 := pr.2.2
    match pr.1 with
    | some e => (.err e, s1, evs1)
    | none =>
      if !cardFreeOrGone s1 row col then (.suspended, s1, evs1)
      else
        let needCleanup :=
          decide (2 ≤ (stackOf s1 playerId).length) ||
          ((getAssoc s1.removalQueue playerId).map List.length |>.getD 0) ≥ 1
        let pp :=
          if needCleanup then processPreviousPair s1 playerId else (s1, [])
        let s2 := pp.1
        let evs2 := pp.2
        if !cardFreeOrGone s2 row col then (.suspended, s2, evs1 ++ evs2)
        else
          match getCards s2 row col with
          | none => (.err "Card not found", s2, evs1 ++ evs2)
          | some c =>
            if c.busy then
              -- line 642-655 of board.ts: the card became busy again; in the
              -- sequential model this re-waits, i.e. suspends (dead code
              -- here, since cardFreeOrGone just passed)
              (.suspended, s2, evs1 ++ evs2)
            else
              let s3 := updateCard s2 row col
                (fun c => { c with faceUp := true, busy := true })
              let s4 :=
                match getAssoc s3.turnStack playerId with
                | some st => setStack s3 playerId (st ++ [⟨row, col⟩])
                | none => s3
              let s5 := processRemovalQueue s4 row col
              let ps := processStack s5 playerId
              (.ok, ps.1, evs1 ++ evs2 ++ ps.2 ++ [.broadcast])
  else (.err "Player not found", s, [])

/-- One SPOT line of the look output: the rendering of the cell (row, col)
from the point of view of player p, exactly as computed inside the loop of
look in board.ts. -/
def renderCell (s : BoardState) (p : String) (row col : Nat) : String :=
  match getCards s row col with
  | none => "none"
  | some card =>
    let controlled := (stackOf s p).any (fun pos => pos.row == row && pos.col == col)
    if !card.faceUp then "down ?"
    else if controlled then "my " ++ card.value
    else "up " ++ card.value

/-- The lines of the look output: dimension header then one SPOT per cell in
row-major order. -/
def lookLines (s : BoardState) (p : String) : List String :=
  (toString s.rows ++ "x" ++ toString s.cols) ::
    (List.range s.rows).flatMap
      (fun r => (List.range s.cols).map (fun c => renderCell s p r c))

/-- look of board.ts: auto-create the player if unknown, then render the
board.  Returns the rendered text and the (possibly extended) state. -/
def look (s : BoardState) (p : String) : String × BoardState :=
  let s1 := if p ∈ s.players then s else addPlayer s p
  (String.intercalate "\n" (lookLines s1 p), s1)

/-- All cell coordinates visited by the row/column loops of look, map and
getBoardSnapshot, in row-major order. -/
def cellList (s : BoardState) : List (Nat × Nat) :=
  (List.range s.rows).flatMap (fun r => (List.range s.cols).map (fun c => (r, c)))

/-- The raw values (the value property, regardless of face-up state) of the
cards visited by the grouping loop of map, in visit order. -/
def presentValues (s : BoardState) : List String :=
  (cellList s).filterMap (fun rc => (getCards s rc.1 rc.2).map Card.value)

/-- Key-insertion order of a JS Map populated left to right: first
occurrences, duplicates dropped. -/
def insertionKeys : List String → List String → List String
  | _, [] => []
  | seen, v :: rest =>
    if v ∈ seen then insertionKeys seen rest
    else v :: insertionKeys (v :: seen) rest

/-- The keys of the valueToCards map built by map of board.ts: the distinct
card values present on the board, in first-occurrence order. -/
def distinctValues (s : BoardState) : List String :=
  insertionKeys [] (presentValues s)

/-- The cells grouped under value v by map of board.ts. -/
def cellsWithValue (s : BoardState) (v : String) : List (Nat × Nat) :=
  (cellList s).filter (fun rc =>
    match getCards s rc.1 rc.2 with
    | some card => card.value == v
    | none => false)

/-- card.setValue applied to the card at a cell. -/
def setValueAt (s : BoardState) (r c : Nat) (v : String) : BoardState :=
  updateCard s r c (fun card => { card with value := v })

/-- One transform promise of map of board.ts: compute f v once and write the
result to every cell of the group (group membership was captured from the
pre-call state s0). -/
def transformGroup (s0 : BoardState) (f : String → String) (v : String)
    (acc : BoardState) : BoardState :=
  (cellsWithValue s0 v).foldl (fun a rc => setValueAt a rc.1 rc.2 (f v)) acc

/-- The board state after all transform promises of a map call complete. -/
def mapApply (s : BoardState) (f : String → String) : BoardState :=
  (distinctValues s).foldl (fun acc v => transformGroup s f v acc) s

/-- map of board.ts with a pure transform f.  Returns (on success) the final
state together with the list of arguments f was invoked on — one invocation
per entry of valueToCards — and the change broadcast; fails with
"Player not found" without auto-creating. -/
def mapOp (s : BoardState) (p : String) (f : String → String) :
    Except String (BoardState × List String) × List BoardEv :=
  if p ∈ s.players then (.ok (mapApply s f, distinctValues s), [.broadcast])
  else (.error "Player not found", [])

/-- One entry of the snapshot taken by getBoardSnapshot of board.ts:
existence, face-up flag, and value-if-face-up of a cell. -/
structure CellSnap where
  hasCard : Bool
  faceUp : Bool
  value : Option String
deriving DecidableEq, Repr

/-- getBoardSnapshot for one cell: an absent card records
(false, false, undefined); a present card records its face-up flag and its
getValue result when face up (undefined when face down). -/
def cellSnap (s : BoardState) (r c : Nat) : CellSnap :=
  match getCards s r c with
  | none => ⟨false, false, none⟩
  | some card => ⟨true, card.faceUp, if card.faceUp then some card.value else none⟩

/-- getBoardSnapshot of board.ts, with cells in row-major key order. -/
def boardSnapshot (s : BoardState) : List CellSnap :=
  (cellList s).map (fun rc => cellSnap s rc.1 rc.2)

/-- The per-cell comparison made by hasBoardChanged of board.ts: existence
changed, face-up flag changed, or both face up with different values. -/
def snapChanged (o n : CellSnap) : Bool :=
  o.hasCard != n.hasCard || o.faceUp != n.faceUp ||
    (o.faceUp && n.faceUp && o.value != n.value)

/-- hasBoardChanged of board.ts.  Both snapshots of one board share the same
row-major key set, so the key-by-key lookup of the source is a positional
comparison; the extra length check covers the "key disappeared / new key"
branches. -/
def hasBoardChanged (o n : List CellSnap) : Bool :=
  (o.zip n).any (fun pr => snapChanged pr.1 pr.2) || o.length != n.length

/-- The entry of watch of board.ts: auto-create the player if unknown and
take the pre-call snapshot the loop will compare against. -/
def watchRegister (s : BoardState) (p : String) : BoardState × List CellSnap :=
  let s1 := if p ∈ s.players then s else addPlayer s p
  (s1, boardSnapshot s1)

/-- The wait loop of watch of board.ts, driven by the sequence of board
states at successive change broadcasts: on each wakeup the loop re-snapshots
and resolves at the first state whose snapshot differs, waiting again on a
spurious wakeup.  Returns none when every wakeup found an unchanged board
(the call stays suspended). -/
def watchAwait (snap : List CellSnap) : List BoardState → Option BoardState
  | [] => none
  | t :: rest => if hasBoardChanged snap (boardSnapshot t) then some t else watchAwait snap rest

/-- checkRep of board.ts as a Boolean predicate (the conjunction of its
assertions). -/
def checkRep (s : BoardState) : Bool :=
  decide (0 < s.rows) && decide (0 < s.cols) &&
  s.cards.length == s.rows * s.cols &&
  s.players.all (fun p =>
    (getAssoc s.turnStack p).isSome && (getAssoc s.removalQueue p).isSome &&
    decide ((stackOf s p).length ≤ 2) &&
    (stackOf s p).all (fun pos => decide (pos.row < s.rows) && decide (pos.col < s.cols)) &&
    (queueOf s p).all (fun pos => decide (pos.row < s.rows) && decide (pos.col < s.cols))) &&
  (List.range s.rows).all (fun r => (List.range s.cols).all (fun c =>
    match getCards s r c with
    | some card =>
      !card.busy ||
        s.players.any (fun p => (stackOf s p).any (fun pos => pos.row == r && pos.col == c))
    | none => true)) &&
  decide (s.players.flatMap (fun p => stackOf s p)).Nodup

/-- The Board constructor.  The singleton slot Board.instance is passed and
returned explicitly.  Note the source assigns Board.instance = this BEFORE
checkRep() runs, so a construction rejected by checkRep still occupies the
slot. -/
def boardNew (inst : Option BoardState) (rows cols : Nat) (cards : List Card) :
    Except String BoardState × Option BoardState :=
  match inst with
  | some b => (.error "Board already exists", some b)
  | none =>
    let b : BoardState :=
      { rows := rows, cols := cols, cards := cards.map some,
        players := [], turnStack := [], removalQueue := [] }
    if checkRep b then (.ok b, some b) else (.error "assertion failed", some b)

/-- Board.getInstance of board.ts. -/
def getInstance (inst : Option BoardState) : Except String BoardState :=
  match inst with
  | none => .error "Board not initialized"
  | some b => .ok b

/-- JS String.prototype.split with a one-character separator, over the
character list of the string. -/
def splitChar (sep : Char) : List Char → List String
  | [] => [""]
  | ch :: rest =>
    match splitChar sep rest with
    | [] => if ch = sep then ["", ""] else [String.mk [ch]]
    | h :: t =>
      if ch = sep then "" :: h :: t
      else String.mk (ch :: h.toList) :: t

/-- JS parseInt on a dimension field: the parsed number, or none for NaN. -/
def digitsToNat : List Char → Option Nat
  | [] => none
  | l =>
    if l.all Char.isDigit then
      some (l.foldl (fun acc ch => acc * 10 + (ch.toNat - 48)) 0)
    else none

/-- parseFromFile of board.ts, applied to the nonempty trimmed lines of the
file.  A dimension token without an "x" separator is rejected before the
constructor runs; otherwise the parsed dimensions and cards go to the
constructor.  A dimension field that parseInt cannot parse yields NaN, which
fails the same checkRep size assertions as 0 does, so it is embedded as 0. -/
def parseBoardLines (inst : Option BoardState) (file : List String) :
    Except String BoardState × Option BoardState :=
  match file with
  | [] => (.error "invalid size", inst)
  | rawSize :: cards =>
    match splitChar 'x' rawSize.toList with
    | [] => (.error "invalid size", inst)
    | [_] => (.error "invalid size", inst)
    | row :: col :: _ =>
      match digitsToNat row.toList, digitsToNat col.toList with
      | some r, some c => boardNew inst r c (cards.map (fun v => ⟨v, false, false⟩))
      | _, _ => boardNew inst 0 0 (cards.map (fun v => ⟨v, false, false⟩))

/-! ### Concrete boards used to witness the theorems -/

/-- A fresh 1x4 board A B A B with two registered players, mirroring the
small boards of the unit tests. -/
def demo0 : BoardState :=
  { rows := 1, cols := 4,
    cards := [some ⟨"A", false, false⟩, some ⟨"B", false, false⟩,
              some ⟨"A", false, false⟩, some ⟨"B", false, false⟩],
    players := ["alice", "bob"],
    turnStack := [("alice", []), ("bob", [])],
    removalQueue := [("alice", []), ("bob", [])] }

/-- A 1x1 board with no registered player. -/
def demoNoPlayers : BoardState :=
  { rows := 1, cols := 1, cards := [some ⟨"A", false, false⟩],
    players := [], turnStack := [], removalQueue := [] }

/-- demo0 after alice flipped her first card at (0,0): she holds it. -/
def demoHold : BoardState :=
  { rows := 1, cols := 4,
    cards := [some ⟨"A", true, true⟩, some ⟨"B", false, false⟩,
              some ⟨"A", false, false⟩, some ⟨"B", false, false⟩],
    players := ["alice", "bob"],
    turnStack := [("alice", [⟨0, 0⟩]), ("bob", [])],
    removalQueue := [("alice", []), ("bob", [])] }

/-- demoHold with the cell (0,2) already vacated. -/
def demoHoldGap : BoardState :=
  { rows := 1, cols := 4,
    cards := [some ⟨"A", true, true⟩, some ⟨"B", false, false⟩,
              none, some ⟨"B", false, false⟩],
    players := ["alice", "bob"],
    turnStack := [("alice", [⟨0, 0⟩]), ("bob", [])],
    removalQueue := [("alice", []), ("bob", [])] }

/-- demoHold after bob also flipped his first card at (0,1). -/
def demoTwoHold : BoardState :=
  { rows := 1, cols := 4,
    cards := [some ⟨"A", true, true⟩, some ⟨"B", true, true⟩,
              some ⟨"A", false, false⟩, some ⟨"B", false, false⟩],
    players := ["alice", "bob"],
    turnStack := [("alice", [⟨0, 0⟩]), ("bob", [⟨0, 1⟩])],
    removalQueue := [("alice", []), ("bob", [])] }

/-! ### Basic lemmas about the state components -/

@[simp] theorem getAssoc_nil (k : String) : getAssoc [] k = none := rfl

theorem getAssoc_setAssoc_self (l : List (String × List Pos)) (k : String) (v : List Pos) :
    getAssoc (setAssoc l k v) k = some v := by
  induction l with
  | nil => simp [setAssoc, getAssoc]
  | cons kv rest ih =>
    by_cases h : kv.fst == k
    · simp [setAssoc, getAssoc, h]
    · simp [setAssoc, getAssoc, h, ih]

theorem getAssoc_setAssoc_ne (l : List (String × List Pos)) (k k' : String)
    (v : List Pos) (h : k' ≠ k) : getAssoc (setAssoc l k v) k' = getAssoc l k' := by
  have hkk : (k == k') = false := by simp [Ne.symm h]
  induction l with
  | nil => simp [setAssoc, getAssoc, hkk]
  | cons kv rest ih =>
    by_cases hk : kv.fst == k
    · have hk' : kv.fst = k := by simpa using hk
      subst hk'
      simp [setAssoc, getAssoc, hkk]
    · simp [setAssoc, getAssoc, hk, ih]

@[simp] theorem updateCard_rows (s : BoardState) (r c : Nat) (f : Card → Card) :
    (updateCard s r c f).rows = s.rows := by
  unfold updateCard; split <;> rfl

@[simp] theorem updateCard_cols (s : BoardState) (r c : Nat) (f : Card → Card) :
    (updateCard s r c f).cols = s.cols := by
  unfold updateCard; split <;> rfl

@[simp] theorem updateCard_players (s : BoardState) (r c : Nat) (f : Card → Card) :
    (updateCard s r c f).players = s.players := by
  unfold updateCard; split <;> rfl

@[simp] theorem updateCard_turnStack (s : BoardState) (r c : Nat) (f : Card → Card) :
    (updateCard s r c f).turnStack = s.turnStack := by
  unfold updateCard; split <;> rfl

@[simp] theorem updateCard_removalQueue (s : BoardState) (r c : Nat) (f : Card → Card) :
    (updateCard s r c f).removalQueue = s.removalQueue := by
  unfold updateCard; split <;> rfl

theorem getCards_updateCard (s : BoardState) (r c r' c' : Nat) (f : Card → Card) :
    getCards (updateCard s r c f) r' c' =
      if r' * s.cols + c' = r * s.cols + c then (getCards s r' c').map f
      else getCards s r' c' := by
  unfold updateCard
  split
  · next card h =>
    show ((s.cards.set (r * s.cols + c) (some (f card))).get? (r' * s.cols + c')).join = _
    by_cases heq : r' * s.cols + c' = r * s.cols + c
    · rw [if_pos heq, heq, List.get?_set_eq, h]
      show some (f card) = ((s.cards.get? (r' * s.cols + c')).join).map f
      rw [heq, h]
      rfl
    · rw [if_neg heq, List.get?_set_ne _ _ (fun hh => heq hh.symm)]
      rfl
  · next h =>
    show getCards s r' c' = _
    by_cases heq : r' * s.cols + c' = r * s.cols + c
    · rw [if_pos heq]
      show ((s.cards.get? (r' * s.cols + c')).join) =
        ((s.cards.get? (r' * s.cols + c')).join).map f
      rw [heq]
      rcases hb : s.cards.get? (r * s.cols + c) with _ | (_ | card)
      · rfl
      · rfl
      · exact absurd hb (h card)
    · rw [if_neg heq]

theorem getCards_updateCard_self (s : BoardState) (r c : Nat) (f : Card → Card) :
    getCards (updateCard s r c f) r c = (getCards s r c).map f := by
  simp [getCards_updateCard]

theorem getCards_updateCard_ne (s : BoardState) (r c r' c' : Nat) (f : Card → Card)
    (h : r' * s.cols + c' ≠ r * s.cols + c) :
    getCards (updateCard s r c f) r' c' = getCards s r' c' := by
  simp [getCards_updateCard, h]

@[simp] theorem removeCard_rows (s : BoardState) (r c : Nat) :
    (removeCard s r c).1.rows = s.rows := rfl

@[simp] theorem removeCard_cols (s : BoardState) (r c : Nat) :
    (removeCard s r c).1.cols = s.cols := rfl

@[simp] theorem removeCard_players (s : BoardState) (r c : Nat) :
    (removeCard s r c).1.players = s.players := rfl

@[simp] theorem removeCard_turnStack (s : BoardState) (r c : Nat) :
    (removeCard s r c).1.turnStack = s.turnStack := rfl

@[simp] theorem removeCard_removalQueue (s : BoardState) (r c : Nat) :
    (removeCard s r c).1.removalQueue = s.removalQueue := rfl

theorem getCards_removeCard (s : BoardState) (r c r' c' : Nat) :
    getCards (removeCard s r c).1 r' c' =
      if r' * s.cols + c' = r * s.cols + c then none else getCards s r' c' := by
  show ((s.cards.set (r * s.cols + c) none).get? (r' * s.cols + c')).join = _
  by_cases heq : r' * s.cols + c' = r * s.cols + c
  · rw [if_pos heq, heq, List.get?_set_eq]
    rcases h : s.cards.get? (r * s.cols + c) with _ | oc <;> simp [h]
  · rw [if_neg heq, List.get?_set_ne _ _ (fun hh => heq hh.symm)]
    rfl

@[simp] theorem pushRemoval_rows (s : BoardState) (p : String) (ps : List Pos) :
    (pushRemoval s p ps).rows = s.rows := by
  unfold pushRemoval; split <;> rfl

@[simp] theorem pushRemoval_cols (s : BoardState) (p : String) (ps : List Pos) :
    (pushRemoval s p ps).cols = s.cols := by
  unfold pushRemoval; split <;> rfl

@[simp] theorem pushRemoval_cards (s : BoardState) (p : String) (ps : List Pos) :
    (pushRemoval s p ps).cards = s.cards := by
  unfold pushRemoval; split <;> rfl

@[simp] theorem pushRemoval_players (s : BoardState) (p : String) (ps : List Pos) :
    (pushRemoval s p ps).players = s.players := by
  unfold pushRemoval; split <;> rfl

@[simp] theorem pushRemoval_turnStack (s : BoardState) (p : String) (ps : List Pos) :
    (pushRemoval s p ps).turnStack = s.turnStack := by
  unfold pushRemoval; split <;> rfl

theorem getCards_pushRemoval (s : BoardState) (p : String) (ps : List Pos) (r c : Nat) :
    getCards (pushRemoval s p ps) r c = getCards s r c := by
  unfold getCards; rw [pushRemoval_cards, pushRemoval_cols]

@[simp] theorem processRemovalQueue_rows (s : BoardState) (r c : Nat) :
    (processRemovalQueue s r c).rows = s.rows := rfl

@[simp] theorem processRemovalQueue_cols (s : BoardState) (r c : Nat) :
    (processRemovalQueue s r c).cols = s.cols := rfl

@[simp] theorem processRemovalQueue_cards (s : BoardState) (r c : Nat) :
    (processRemovalQueue s r c).cards = s.cards := rfl

@[simp] theorem processRemovalQueue_players (s : BoardState) (r c : Nat) :
    (processRemovalQueue s r c).players = s.players := rfl

@[simp] theorem processRemovalQueue_turnStack (s : BoardState) (r c : Nat) :
    (processRemovalQueue s r c).turnStack = s.turnStack := rfl

theorem getCards_processRemovalQueue (s : BoardState) (r c r' c' : Nat) :
    getCards (processRemovalQueue s r c) r' c' = getCards s r' c' := rfl

theorem getAssoc_processRemovalQueue (s : BoardState) (r c : Nat) (q : String) :
    getAssoc (processRemovalQueue s r c).removalQueue q =
      (getAssoc s.removalQueue q).map
        (fun l => l.filter (fun pos => !(pos.row == r && pos.col == c))) := by
  show getAssoc (s.removalQueue.map _) q = _
  induction s.removalQueue with
  | nil => rfl
  | cons kv rest ih =>
    by_cases h : kv.fst == q
    · simp [getAssoc, h]
    · simpa [getAssoc, h] using ih

@[simp] theorem setStack_rows (s : BoardState) (p : String) (v : List Pos) :
    (setStack s p v).rows = s.rows := rfl

@[simp] theorem setStack_cols (s : BoardState) (p : String) (v : List Pos) :
    (setStack s p v).cols = s.cols := rfl

@[simp] theorem setStack_cards (s : BoardState) (p : String) (v : List Pos) :
    (setStack s p v).cards = s.cards := rfl

@[simp] theorem setStack_players (s : BoardState) (p : String) (v : List Pos) :
    (setStack s p v).players = s.players := rfl

@[simp] theorem setStack_turnStack (s : BoardState) (p : String) (v : List Pos) :
    (setStack s p v).turnStack = setAssoc s.turnStack p v := rfl

@[simp] theorem setStack_removalQueue (s : BoardState) (p : String) (v : List Pos) :
    (setStack s p v).removalQueue = s.removalQueue := rfl

@[simp] theorem getCards_setStack (s : BoardState) (p : String) (v : List Pos)
    (r c : Nat) : getCards (setStack s p v) r c = getCards s r c := rfl

@[simp] theorem setQueue_rows (s : BoardState) (p : String) (v : List Pos) :
    (setQueue s p v).rows = s.rows := rfl

@[simp] theorem setQueue_cols (s : BoardState) (p : String) (v : List Pos) :
    (setQueue s p v).cols = s.cols := rfl

@[simp] theorem setQueue_cards (s : BoardState) (p : String) (v : List Pos) :
    (setQueue s p v).cards = s.cards := rfl

@[simp] theorem setQueue_players (s : BoardState) (p : String) (v : List Pos) :
    (setQueue s p v).players = s.players := rfl

@[simp] theorem setQueue_turnStack (s : BoardState) (p : String) (v : List Pos) :
    (setQueue s p v).turnStack = s.turnStack := rfl

@[simp] theorem setQueue_removalQueue (s : BoardState) (p : String) (v : List Pos) :
    (setQueue s p v).removalQueue = setAssoc s.removalQueue p v := rfl

@[simp] theorem getCards_setQueue (s : BoardState) (p : String) (v : List Pos)
    (r c : Nat) : getCards (setQueue s p v) r c = getCards s r c := rfl

@[simp] theorem pushPlayer_rows (s : BoardState) (p : String) :
    (pushPlayer s p).rows = s.rows := rfl

@[simp] theorem pushPlayer_cols (s : BoardState) (p : String) :
    (pushPlayer s p).cols = s.cols := rfl

@[simp] theorem pushPlayer_cards (s : BoardState) (p : String) :
    (pushPlayer s p).cards = s.cards := rfl

@[simp] theorem pushPlayer_players (s : BoardState) (p : String) :
    (pushPlayer s p).players = s.players ++ [p] := rfl

@[simp] theorem pushPlayer_turnStack (s : BoardState) (p : String) :
    (pushPlayer s p).turnStack = s.turnStack := rfl

@[simp] theorem pushPlayer_removalQueue (s : BoardState) (p : String) :
    (pushPlayer s p).removalQueue = s.removalQueue := rfl

@[simp] theorem removeCard_events (s : BoardState) (r c : Nat) :
    (removeCard s r c).2 = [.wakeCell ⟨r, c⟩, .broadcast] := rfl

theorem getAssoc_pushRemoval_self (s : BoardState) (p : String) (ps : List Pos) :
    getAssoc (pushRemoval s p ps).removalQueue p =
      (getAssoc s.removalQueue p).map (fun q => q ++ ps) := by
  unfold pushRemoval
  rcases h : getAssoc s.removalQueue p with _ | q
  · simp [h]
  · simp [h, getAssoc_setAssoc_self]

theorem getAssoc_pushRemoval_ne (s : BoardState) (p q : String) (ps : List Pos)
    (h : q ≠ p) :
    getAssoc (pushRemoval s q ps).removalQueue p = getAssoc s.removalQueue p := by
  unfold pushRemoval
  rcases hq : getAssoc s.removalQueue q with _ | l
  · rfl
  · simp [getAssoc_setAssoc_ne _ _ _ _ (Ne.symm h)]

/-- Evaluation of flip: a first-card flip (empty stack, empty backlog) at a
position holding no card fails with the card-not-found error and changes
nothing. -/
theorem flip_first_missing (s : BoardState) (p : String) (r c : Nat)
    (hp : p ∈ s.players) (hst : getAssoc s.turnStack p = some [])
    (hq : getAssoc s.removalQueue p = some [])
    (hnone : getCards s r c = none) :
    flip s p r c = (.err "Card not found", s, []) := by
  simp [flip, hp, hst, hq, hnone, cardFreeOrGone, stackOf]

/-- Evaluation of flip: a first-card flip (empty stack, empty backlog) at a
free card takes it: the card turns face up and busy, the position is pushed
onto the player turn stack, the position is scrubbed from every removal
backlog, and a change is broadcast. -/
theorem flip_first_take (s : BoardState) (p : String) (r c : Nat) (card : Card)
    (hp : p ∈ s.players) (hst : getAssoc s.turnStack p = some [])
    (hq : getAssoc s.removalQueue p = some [])
    (hcard : getCards s r c = some card) (hbusy : card.busy = false) :
    flip s p r c =
      (.ok,
       processRemovalQueue
         (setStack (updateCard s r c (fun d => { d with faceUp := true, busy := true }))
           p [⟨r, c⟩]) r c,
       [.broadcast]) := by
  simp [flip, hp, hst, hq, hcard, hbusy, cardFreeOrGone, stackOf, processStack,
    getAssoc_setAssoc_self]

theorem posHit_eq (pos : Pos) (r c : Nat) :
    (pos.row == r && pos.col == c) = decide (pos = Pos.mk r c) := by
  rcases pos with ⟨a, b⟩
  by_cases h1 : a = r <;> by_cases h2 : b = c <;> simp [h1, h2]

/-- Evaluation of flip: a second-card flip at a free card whose value differs
from the held card: both cards end face up and not busy, both positions move
to the player removal backlog, the stack empties, waiters of both cells are
woken and a change is broadcast. -/
theorem flip_second_mismatch (s : BoardState) (p : String) (r c : Nat)
    (pos1 : Pos) (card1 card : Card)
    (hp : p ∈ s.players) (hst : getAssoc s.turnStack p = some [pos1])
    (hq : getAssoc s.removalQueue p = some [])
    (hc1 : getCards s pos1.row pos1.col = some card1)
    (hb1 : card1.busy = true) (hf1 : card1.faceUp = true)
    (hcard : getCards s r c = some card) (hbusy : card.busy = false)
    (hne : pos1 ≠ Pos.mk r c)
    (hflat : pos1.row * s.cols + pos1.col ≠ r * s.cols + c)
    (hval : card1.value ≠ card.value) :
    (flip s p r c).1 = .ok ∧
    getAssoc (flip s p r c).2.1.turnStack p = some [] ∧
    getAssoc (flip s p r c).2.1.removalQueue p = some [pos1, Pos.mk r c] ∧
    getCards (flip s p r c).2.1 pos1.row pos1.col = some { card1 with busy := false } ∧
    getCards (flip s p r c).2.1 r c = some { card with faceUp := true, busy := false } ∧
    (flip s p r c).2.2 = [.wakeCell pos1, .wakeCell (Pos.mk r c), .broadcast] ∧
    (flip s p r c).2.1.cols = s.cols ∧
    (flip s p r c).2.1.players = s.players := by
  simp [flip, preprocess, processStack, hp, hst, hq, hc1, hf1, hb1, hcard, hbusy,
    hflat, hval, cardFreeOrGone, stackOf, Card.getValue,
    getAssoc_setAssoc_self, getAssoc_setAssoc_ne, getCards_updateCard,
    getCards_pushRemoval, getCards_processRemovalQueue, getAssoc_processRemovalQueue,
    getAssoc_pushRemoval_self, posHit_eq, hne, Ne.symm hflat]

/-- Frame facts for flip_second_mismatch: other players and untouched cells
are unaffected; every removal queue gets the target position scrubbed. -/
theorem flip_second_mismatch_frame (s : BoardState) (p : String) (r c : Nat)
    (pos1 : Pos) (card1 card : Card)
    (hp : p ∈ s.players) (hst : getAssoc s.turnStack p = some [pos1])
    (hq : getAssoc s.removalQueue p = some [])
    (hc1 : getCards s pos1.row pos1.col = some card1)
    (hb1 : card1.busy = true) (hf1 : card1.faceUp = true)
    (hcard : getCards s r c = some card) (hbusy : card.busy = false)
    (hne : pos1 ≠ Pos.mk r c)
    (hflat : pos1.row * s.cols + pos1.col ≠ r * s.cols + c)
    (hval : card1.value ≠ card.value) :
    (∀ q', q' ≠ p →
      getAssoc (flip s p r c).2.1.turnStack q' = getAssoc s.turnStack q' ∧
      getAssoc (flip s p r c).2.1.removalQueue q' =
        (getAssoc s.removalQueue q').map
          (fun l => l.filter (fun pos => !(pos.row == r && pos.col == c)))) ∧
    (∀ r' c', r' * s.cols + c' ≠ pos1.row * s.cols + pos1.col →
      r' * s.cols + c' ≠ r * s.cols + c →
      getCards (flip s p r c).2.1 r' c' = getCards s r' c') := by
  constructor
  · intro q' hq'
    constructor
    · simp [flip, preprocess, processStack, hp, hst, hq, hc1, hf1, hb1, hcard, hbusy,
        hflat, hval, cardFreeOrGone, stackOf, Card.getValue,
        getAssoc_setAssoc_self, getAssoc_setAssoc_ne, getCards_updateCard,
        getCards_pushRemoval, getCards_processRemovalQueue, getAssoc_processRemovalQueue,
        getAssoc_pushRemoval_self, posHit_eq, hne, hq', Ne.symm hflat]
    · simp [flip, preprocess, processStack, hp, hst, hq, hc1, hf1, hb1, hcard, hbusy,
        hflat, hval, cardFreeOrGone, stackOf, Card.getValue,
        getAssoc_setAssoc_self, getAssoc_setAssoc_ne, getCards_updateCard,
        getCards_pushRemoval, getCards_processRemovalQueue, getAssoc_processRemovalQueue,
        getAssoc_pushRemoval_self, getAssoc_pushRemoval_ne, posHit_eq, hne, hq',
        Ne.symm hq', Ne.symm hflat]
  · intro r' c' hfr1 hfr2
    simp [flip, preprocess, processStack, hp, hst, hq, hc1, hf1, hb1, hcard, hbusy,
      hflat, hval, cardFreeOrGone, stackOf, Card.getValue,
      getAssoc_setAssoc_self, getAssoc_setAssoc_ne, getCards_updateCard,
      getCards_pushRemoval, getCards_processRemovalQueue, getAssoc_processRemovalQueue,
      getAssoc_pushRemoval_self, posHit_eq, hne, hfr1, hfr2, Ne.symm hflat]

/-- Evaluation of flip: a second-card flip at a free card whose value equals
the held card: both cards stay face up and busy, the stack keeps both
positions (new card first), the backlog stays empty, and only the final
change broadcast is emitted. -/
theorem flip_second_match (s : BoardState) (p : String) (r c : Nat)
    (pos1 : Pos) (card1 card : Card)
    (hp : p ∈ s.players) (hst : getAssoc s.turnStack p = some [pos1])
    (hq : getAssoc s.removalQueue p = some [])
    (hc1 : getCards s pos1.row pos1.col = some card1)
    (hb1 : card1.busy = true) (hf1 : card1.faceUp = true)
    (hcard : getCards s r c = some card) (hbusy : card.busy = false)
    (hne : pos1 ≠ Pos.mk r c)
    (hflat : pos1.row * s.cols + pos1.col ≠ r * s.cols + c)
    (hval : card1.value = card.value) :
    (flip s p r c).1 = .ok ∧
    getAssoc (flip s p r c).2.1.turnStack p = some [Pos.mk r c, pos1] ∧
    getAssoc (flip s p r c).2.1.removalQueue p = some [] ∧
    getCards (flip s p r c).2.1 pos1.row pos1.col = some card1 ∧
    getCards (flip s p r c).2.1 r c = some { card with faceUp := true, busy := true } ∧
    (flip s p r c).2.2 = [.broadcast] ∧
    (flip s p r c).2.1.cols = s.cols ∧
    (flip s p r c).2.1.players = s.players := by
  simp [flip, preprocess, processStack, hp, hst, hq, hc1, hf1, hb1, hcard, hbusy,
    hflat, hval, cardFreeOrGone, stackOf, Card.getValue,
    getAssoc_setAssoc_self, getAssoc_setAssoc_ne, getCards_updateCard,
    getCards_pushRemoval, getCards_processRemovalQueue, getAssoc_processRemovalQueue,
    getAssoc_pushRemoval_self, posHit_eq, hne, Ne.symm hflat]

/-- Frame facts for flip_second_match: other players and untouched cells are
unaffected. -/
theorem flip_second_match_frame (s : BoardState) (p : String) (r c : Nat)
    (pos1 : Pos) (card1 card : Card)
    (hp : p ∈ s.players) (hst : getAssoc s.turnStack p = some [pos1])
    (hq : getAssoc s.removalQueue p = some [])
    (hc1 : getCards s pos1.row pos1.col = some card1)
    (hb1 : card1.busy = true) (hf1 : card1.faceUp = true)
    (hcard : getCards s r c = some card) (hbusy : card.busy = false)
    (hne : pos1 ≠ Pos.mk r c)
    (hflat : pos1.row * s.cols + pos1.col ≠ r * s.cols + c)
    (hval : card1.value = card.value) :
    (∀ q', q' ≠ p →
      getAssoc (flip s p r c).2.1.turnStack q' = getAssoc s.turnStack q') ∧
    (∀ r' c', r' * s.cols + c' ≠ r * s.cols + c →
      getCards (flip s p r c).2.1 r' c' = getCards s r' c') := by
  constructor
  · intro q' hq'
    simp [flip, preprocess, processStack, hp, hst, hq, hc1, hf1, hb1, hcard, hbusy,
      hflat, hval, cardFreeOrGone, stackOf, Card.getValue,
      getAssoc_setAssoc_self, getAssoc_setAssoc_ne, getCards_updateCard,
      getCards_pushRemoval, getCards_processRemovalQueue, getAssoc_processRemovalQueue,
      getAssoc_pushRemoval_self, posHit_eq, hne, hq', Ne.symm hflat]
  · intro r' c' hfr2
    simp [flip, preprocess, processStack, hp, hst, hq, hc1, hf1, hb1, hcard, hbusy,
      hflat, hval, cardFreeOrGone, stackOf, Card.getValue,
      getAssoc_setAssoc_self, getAssoc_setAssoc_ne, getCards_updateCard,
      getCards_pushRemoval, getCards_processRemovalQueue, getAssoc_processRemovalQueue,
      getAssoc_pushRemoval_self, posHit_eq, hne, hfr2, Ne.symm hflat]

/-- Evaluation of flip: a first-card flip while the stack still holds the
previous turn matched pair: the pair is removed from the board, then the
target card is taken. -/
theorem flip_newTurn_matched (s : BoardState) (p : String) (r c : Nat)
    (q1 q2 : Pos) (c1 c2 card : Card)
    (hp : p ∈ s.players) (hst : getAssoc s.turnStack p = some [q2, q1])
    (hq : getAssoc s.removalQueue p = some [])
    (hc1 : getCards s q1.row q1.col = some c1)
    (hc2 : getCards s q2.row q2.col = some c2)
    (hcard : getCards s r c = some card) (hbusy : card.busy = false)
    (hflat1 : r * s.cols + c ≠ q1.row * s.cols + q1.col)
    (hflat2 : r * s.cols + c ≠ q2.row * s.cols + q2.col) :
    (flip s p r c).1 = .ok ∧
    getCards (flip s p r c).2.1 q1.row q1.col = none ∧
    getCards (flip s p r c).2.1 q2.row q2.col = none ∧
    getCards (flip s p r c).2.1 r c = some { card with faceUp := true, busy := true } ∧
    getAssoc (flip s p r c).2.1.turnStack p = some [Pos.mk r c] ∧
    getAssoc (flip s p r c).2.1.removalQueue p = some [] ∧
    (flip s p r c).2.2 = [.wakeCell q2, .broadcast, .wakeCell q1, .broadcast, .broadcast] ∧
    (flip s p r c).2.1.cols = s.cols ∧
    (flip s p r c).2.1.players = s.players := by
  simp [flip, processPreviousPair, drainBacklog, processStack, hp, hst, hq, hc1, hc2,
    hcard, hbusy, cardFreeOrGone, stackOf,
    getAssoc_setAssoc_self, getAssoc_setAssoc_ne, getCards_updateCard,
    getCards_removeCard, getCards_pushRemoval, getCards_processRemovalQueue,
    getAssoc_processRemovalQueue, getAssoc_pushRemoval_self,
    Ne.symm hflat1, Ne.symm hflat2, hflat1, hflat2]

/-- Evaluation of flip: a first-card flip while the player backlog holds one
free cell: that cell is turned face down and its waiters woken, then the
target card is taken. -/
theorem flip_newTurn_drain1 (s : BoardState) (p : String) (r c : Nat)
    (b1 : Pos) (cb card : Card)
    (hp : p ∈ s.players) (hst : getAssoc s.turnStack p = some [])
    (hq : getAssoc s.removalQueue p = some [b1])
    (hb : getCards s b1.row b1.col = some cb) (hbb : cb.busy = false)
    (hcard : getCards s r c = some card) (hbusy : card.busy = false)
    (hflat : b1.row * s.cols + b1.col ≠ r * s.cols + c) :
    (flip s p r c).1 = .ok ∧
    getCards (flip s p r c).2.1 b1.row b1.col =
      some { cb with faceUp := false, busy := false } ∧
    getCards (flip s p r c).2.1 r c = some { card with faceUp := true, busy := true } ∧
    getAssoc (flip s p r c).2.1.turnStack p = some [Pos.mk r c] ∧
    getAssoc (flip s p r c).2.1.removalQueue p = some [] ∧
    (flip s p r c).2.2 = [.wakeCell b1, .broadcast] ∧
    (flip s p r c).2.1.cols = s.cols ∧
    (flip s p r c).2.1.players = s.players := by
  simp [flip, processPreviousPair, drainBacklog, processStack, hp, hst, hq, hb, hbb,
    hcard, hbusy, cardFreeOrGone, stackOf,
    getAssoc_setAssoc_self, getAssoc_setAssoc_ne, getCards_updateCard,
    getCards_removeCard, getCards_pushRemoval, getCards_processRemovalQueue,
    getAssoc_processRemovalQueue, getAssoc_pushRemoval_self,
    Ne.symm hflat, hflat]

/-- Frame facts for flip_newTurn_drain1: other players and untouched cells
are unaffected. -/
theorem flip_newTurn_drain1_frame (s : BoardState) (p : String) (r c : Nat)
    (b1 : Pos) (cb card : Card)
    (hp : p ∈ s.players) (hst : getAssoc s.turnStack p = some [])
    (hq : getAssoc s.removalQueue p = some [b1])
    (hb : getCards s b1.row b1.col = some cb) (hbb : cb.busy = false)
    (hcard : getCards s r c = some card) (hbusy : card.busy = false)
    (hflat : b1.row * s.cols + b1.col ≠ r * s.cols + c) :
    (∀ q', q' ≠ p →
      getAssoc (flip s p r c).2.1.turnStack q' = getAssoc s.turnStack q') ∧
    (∀ r' c', r' * s.cols + c' ≠ b1.row * s.cols + b1.col →
      r' * s.cols + c' ≠ r * s.cols + c →
      getCards (flip s p r c).2.1 r' c' = getCards s r' c') := by
  constructor
  · intro q' hq'
    simp [flip, processPreviousPair, drainBacklog, processStack, hp, hst, hq, hb, hbb,
      hcard, hbusy, cardFreeOrGone, stackOf,
      getAssoc_setAssoc_self, getAssoc_setAssoc_ne, getCards_updateCard,
      getCards_removeCard, getCards_pushRemoval, getCards_processRemovalQueue,
      getAssoc_processRemovalQueue, getAssoc_pushRemoval_self, hq',
      Ne.symm hflat, hflat]
  · intro r' c' hfr1 hfr2
    simp [flip, processPreviousPair, drainBacklog, processStack, hp, hst, hq, hb, hbb,
      hcard, hbusy, cardFreeOrGone, stackOf,
      getAssoc_setAssoc_self, getAssoc_setAssoc_ne, getCards_updateCard,
      getCards_removeCard, getCards_pushRemoval, getCards_processRemovalQueue,
      getAssoc_processRemovalQueue, getAssoc_pushRemoval_self,
      Ne.symm hflat, hflat, hfr1, hfr2]

/-- Evaluation of flip: a first-card flip while the player backlog holds two
free cells: both are turned face down, then the target card is taken. -/
theorem flip_newTurn_drain2 (s : BoardState) (p : String) (r c : Nat)
    (b1 b2 : Pos) (cb1 cb2 card : Card)
    (hp : p ∈ s.players) (hst : getAssoc s.turnStack p = some [])
    (hq : getAssoc s.removalQueue p = some [b1, b2])
    (hb1 : getCards s b1.row b1.col = some cb1) (hbb1 : cb1.busy = false)
    (hb2 : getCards s b2.row b2.col = some cb2) (hbb2 : cb2.busy = false)
    (hcard : getCards s r c = some card) (hbusy : card.busy = false)
    (hflat1 : b1.row * s.cols + b1.col ≠ r * s.cols + c)
    (hflat2 : b2.row * s.cols + b2.col ≠ r * s.cols + c)
    (hflat12 : b2.row * s.cols + b2.col ≠ b1.row * s.cols + b1.col) :
    (flip s p r c).1 = .ok ∧
    getCards (flip s p r c).2.1 b1.row b1.col =
      some { cb1 with faceUp := false, busy := false } ∧
    getCards (flip s p r c).2.1 b2.row b2.col =
      some { cb2 with faceUp := false, busy := false } ∧
    getCards (flip s p r c).2.1 r c = some { card with faceUp := true, busy := true } ∧
    getAssoc (flip s p r c).2.1.turnStack p = some [Pos.mk r c] ∧
    getAssoc (flip s p r c).2.1.removalQueue p = some [] ∧
    (flip s p r c).2.2 = [.wakeCell b1, .wakeCell b2, .broadcast] ∧
    (flip s p r c).2.1.cols = s.cols ∧
    (flip s p r c).2.1.players = s.players := by
  simp [flip, processPreviousPair, drainBacklog, processStack, hp, hst, hq,
    hb1, hbb1, hb2, hbb2, hcard, hbusy, cardFreeOrGone, stackOf,
    getAssoc_setAssoc_self, getAssoc_setAssoc_ne, getCards_updateCard,
    getCards_removeCard, getCards_pushRemoval, getCards_processRemovalQueue,
    getAssoc_processRemovalQueue, getAssoc_pushRemoval_self,
    Ne.symm hflat1, Ne.symm hflat2, hflat1, hflat2, hflat12, Ne.symm hflat12]

/-! ### Lemmas about map -/

theorem flat_inj {K a b a' b' : Nat} (hb : b < K) (hb' : b' < K)
    (h : a * K + b = a' * K + b') : a = a' ∧ b = b' := by
  have hK : 0 < K := Nat.lt_of_le_of_lt (Nat.zero_le b) hb
  have hbb : b = b' := by
    have h1 : (a * K + b) % K = (a' * K + b') % K := by rw [h]
    rwa [Nat.add_comm (a * K) b, Nat.add_mul_mod_self_right,
      Nat.add_comm (a' * K) b', Nat.add_mul_mod_self_right,
      Nat.mod_eq_of_lt hb, Nat.mod_eq_of_lt hb'] at h1
  subst hbb
  exact ⟨Nat.eq_of_mul_eq_mul_right hK (Nat.add_right_cancel h), rfl⟩

theorem mem_cellList (s : BoardState) (a b : Nat) :
    (a, b) ∈ cellList s ↔ a < s.rows ∧ b < s.cols := by
  simp [cellList, List.mem_flatMap, List.mem_map, List.mem_range, Prod.ext_iff]

theorem mem_insertionKeys (l : List String) (v : String) :
    ∀ seen, (v ∈ insertionKeys seen l ↔ v ∈ l ∧ v ∉ seen) := by
  induction l with
  | nil => intro seen; simp [insertionKeys]
  | cons w rest ih =>
    intro seen
    by_cases hw : w ∈ seen
    · rw [show insertionKeys seen (w :: rest) = insertionKeys seen rest from by
        simp [insertionKeys, hw]]
      rw [ih seen]
      constructor
      · rintro ⟨h1, h2⟩
        exact ⟨List.mem_cons_of_mem w h1, h2⟩
      · rintro ⟨h1, h2⟩
        rcases List.mem_cons.1 h1 with h1 | h1
        · exact absurd (h1 ▸ hw) h2
        · exact ⟨h1, h2⟩
    · rw [show insertionKeys seen (w :: rest) = w :: insertionKeys (w :: seen) rest from by
        simp [insertionKeys, hw]]
      constructor
      · intro h
        rcases List.mem_cons.1 h with h | h
        · exact ⟨h ▸ List.mem_cons_self w rest, h ▸ hw⟩
        · obtain ⟨h1, h2⟩ := (ih (w :: seen)).1 h
          exact ⟨List.mem_cons_of_mem w h1,
            fun hs => h2 (List.mem_cons_of_mem w hs)⟩
      · rintro ⟨h1, h2⟩
        rcases List.mem_cons.1 h1 with h1 | h1
        · exact h1 ▸ List.mem_cons_self w _
        · by_cases hvw : v = w
          · exact hvw ▸ List.mem_cons_self w _
          · exact List.mem_cons_of_mem w
              ((ih (w :: seen)).2 ⟨h1, by simp [hvw, h2]⟩)

theorem insertionKeys_nodup (l : List String) : ∀ seen, (insertionKeys seen l).Nodup := by
  induction l with
  | nil => intro seen; simp [insertionKeys]
  | cons w rest ih =>
    intro seen
    by_cases hw : w ∈ seen
    · simpa [insertionKeys, hw] using ih seen
    · rw [show insertionKeys seen (w :: rest) = w :: insertionKeys (w :: seen) rest from by
        simp [insertionKeys, hw]]
      refine List.nodup_cons.2 ⟨?_, ih (w :: seen)⟩
      intro hmem
      exact ((mem_insertionKeys rest w (w :: seen)).1 hmem).2 (List.mem_cons_self w seen)

theorem mem_presentValues (s : BoardState) (v : String) :
    v ∈ presentValues s ↔
      ∃ r c card, r < s.rows ∧ c < s.cols ∧ getCards s r c = some card ∧
        card.value = v := by
  simp only [presentValues, List.mem_filterMap]
  constructor
  · rintro ⟨⟨a, b⟩, hmem, hval⟩
    obtain ⟨ha, hb⟩ := (mem_cellList s a b).1 hmem
    rcases hcd : getCards s a b with _ | card
    · rw [hcd] at hval; exact absurd hval (by simp)
    · rw [hcd] at hval
      exact ⟨a, b, card, ha, hb, hcd, by simpa using hval⟩
  · rintro ⟨r, c, card, hr, hc, hcd, hval⟩
    exact ⟨(r, c), (mem_cellList s r c).2 ⟨hr, hc⟩, by simp [hcd, hval]⟩

theorem map_setValue_idem (X : Option Card) (w : String) :
    (X.map (fun d => { d with value := w })).map (fun d => { d with value := w }) =
      X.map (fun d => { d with value := w }) := by
  cases X <;> rfl

theorem getCards_foldl_setValue (cells : List (Nat × Nat)) (acc : BoardState)
    (w : String) (r c : Nat) :
    (cells.foldl (fun a rc => setValueAt a rc.1 rc.2 w) acc).cols = acc.cols ∧
    getCards (cells.foldl (fun a rc => setValueAt a rc.1 rc.2 w) acc) r c =
      if cells.any (fun rc => rc.1 * acc.cols + rc.2 == r * acc.cols + c)
      then (getCards acc r c).map (fun d => { d with value := w })
      else getCards acc r c := by
  induction cells generalizing acc with
  | nil => simp
  | cons rc rest ih =>
    obtain ⟨ihc, ihg⟩ := ih (setValueAt acc rc.1 rc.2 w)
    have hcols : (setValueAt acc rc.1 rc.2 w).cols = acc.cols := by simp [setValueAt]
    refine ⟨by rw [List.foldl_cons, ihc, hcols], ?_⟩
    rw [List.foldl_cons, ihg, hcols]
    by_cases hhit : rc.1 * acc.cols + rc.2 = r * acc.cols + c
    · have h1 : getCards (setValueAt acc rc.1 rc.2 w) r c =
          (getCards acc r c).map (fun d => { d with value := w }) := by
        unfold setValueAt
        rw [getCards_updateCard, if_pos hhit.symm]
      rw [h1]
      simp only [List.any_cons, hhit, beq_self_eq_true, Bool.true_or, if_true]
      by_cases hrest :
          rest.any (fun rc => rc.1 * acc.cols + rc.2 == r * acc.cols + c) = true
      · rw [if_pos hrest, map_setValue_idem]
      · rw [if_neg hrest]
    · have h1 : getCards (setValueAt acc rc.1 rc.2 w) r c = getCards acc r c := by
        unfold setValueAt
        rw [getCards_updateCard, if_neg (fun h => hhit h.symm)]
      rw [h1]
      simp only [List.any_cons, (by simpa using hhit :
        (rc.1 * acc.cols + rc.2 == r * acc.cols + c) = false), Bool.false_or]

theorem cellsWithValue_hit (s0 : BoardState) (v : String) (r c : Nat)
    (hr : r < s0.rows) (hc : c < s0.cols) (card : Card)
    (hcard : getCards s0 r c = some card) :
    (cellsWithValue s0 v).any (fun rc => rc.1 * s0.cols + rc.2 == r * s0.cols + c) =
      (card.value == v) := by
  by_cases hv : card.value = v
  · rw [(by simpa using hv : (card.value == v) = true), List.any_eq_true]
    refine ⟨(r, c), ?_, by simp⟩
    simp only [cellsWithValue, List.mem_filter]
    exact ⟨(mem_cellList s0 r c).2 ⟨hr, hc⟩, by simp [hcard, hv]⟩
  · rw [(by simpa using hv : (card.value == v) = false), List.any_eq_false]
    rintro ⟨a, b⟩ hmem
    simp only [cellsWithValue, List.mem_filter] at hmem
    obtain ⟨hcl, hpred⟩ := hmem
    obtain ⟨ha, hb⟩ := (mem_cellList s0 a b).1 hcl
    intro hflat
    obtain ⟨h1, h2⟩ := flat_inj hb hc (by simpa using hflat)
    subst h1; subst h2
    rw [hcard] at hpred
    exact hv (by simpa using hpred)

theorem getCards_mapApply_aux (s0 : BoardState) (f : String → String)
    (groups : List String) (r c : Nat) (hr : r < s0.rows) (hc : c < s0.cols)
    (card : Card) (hcard : getCards s0 r c = some card) :
    ∀ acc : BoardState, acc.cols = s0.cols →
    (groups.foldl (fun a v => transformGroup s0 f v a) acc).cols = s0.cols ∧
    getCards (groups.foldl (fun a v => transformGroup s0 f v a) acc) r c =
      (if card.value ∈ groups
       then (getCards acc r c).map (fun d => { d with value := f card.value })
       else getCards acc r c) := by
  induction groups with
  | nil => intro acc hcols; exact ⟨hcols, by simp⟩
  | cons v gs ih =>
    intro acc hcols
    obtain ⟨hAc, hAg⟩ := getCards_foldl_setValue (cellsWithValue s0 v) acc (f v) r c
    rw [hcols, cellsWithValue_hit s0 v r c hr hc card hcard] at hAg
    have hTc : (transformGroup s0 f v acc).cols = s0.cols := by
      rw [show transformGroup s0 f v acc =
        (cellsWithValue s0 v).foldl (fun a rc => setValueAt a rc.1 rc.2 (f v)) acc
        from rfl, hAc, hcols]
    obtain ⟨ihc, ihg⟩ := ih (transformGroup s0 f v acc) hTc
    refine ⟨by rw [List.foldl_cons]; exact ihc, ?_⟩
    rw [List.foldl_cons, ihg]
    by_cases hv : card.value = v
    · subst hv
      have hT : getCards (transformGroup s0 f card.value acc) r c =
          (getCards acc r c).map (fun d => { d with value := f card.value }) := by
        rw [show transformGroup s0 f card.value acc =
          (cellsWithValue s0 card.value).foldl
            (fun a rc => setValueAt a rc.1 rc.2 (f card.value)) acc
          from rfl, hAg]
        simp
      rw [hT]
      simp only [List.mem_cons, true_or, if_true]
      by_cases hgs : card.value ∈ gs
      · rw [if_pos hgs, map_setValue_idem]
      · rw [if_neg hgs]
    · have hT : getCards (transformGroup s0 f v acc) r c = getCards acc r c := by
        rw [show transformGroup s0 f v acc =
          (cellsWithValue s0 v).foldl (fun a rc => setValueAt a rc.1 rc.2 (f v)) acc
          from rfl, hAg, (by simpa using hv : (card.value == v) = false)]
        simp
      rw [hT]
      simp only [List.mem_cons, hv, false_or]

/-! ### The busy-iff-held invariant -/

/-- The flat index a position addresses on a given board. -/
def flatOf (s : BoardState) (pos : Pos) : Nat :=
  pos.row * s.cols + pos.col

/-- Whether the card addressed by a position is currently busy. -/
def busyAt (s : BoardState) (pos : Pos) : Bool :=
  match getCards s pos.row pos.col with
  | some card => card.busy
  | none => false

/-- The invariant stated by the spec: over the positions of the data model
(row < rows, col < cols), a card is busy iff its position lies in exactly one
player turn stack, and no position lies in the stacks of two players. -/
def BusyStackInv (s : BoardState) : Prop :=
  (∀ pos : Pos, pos.row < s.rows → pos.col < s.cols →
    (busyAt s pos = true ↔ ∃! q, q ∈ s.players ∧ pos ∈ stackOf s q)) ∧
  (∀ p1 p2 pos, p1 ∈ s.players → p2 ∈ s.players →
    pos ∈ stackOf s p1 → pos ∈ stackOf s p2 → p1 = p2)

/-- The inductive invariant carried through every board operation.  It
strengthens BusyStackInv with the bookkeeping facts needed to push it
through flip: registered players have map entries, stack positions address
real columns, and stacks are duplicate-free and flat-disjoint. -/
structure WF (s : BoardState) : Prop where
  stack_some : ∀ p ∈ s.players, (getAssoc s.turnStack p).isSome = true
  queue_some : ∀ p ∈ s.players, (getAssoc s.removalQueue p).isSome = true
  stack_cols : ∀ p ∈ s.players, ∀ pos ∈ stackOf s p, pos.col < s.cols
  busy_of_stack : ∀ p ∈ s.players, ∀ pos ∈ stackOf s p, busyAt s pos = true
  stack_of_busy : ∀ pos : Pos, pos.row < s.rows → pos.col < s.cols →
    busyAt s pos = true → ∃ p, p ∈ s.players ∧ pos ∈ stackOf s p
  unique_flat : ∀ p1 p2 pos1 pos2, p1 ∈ s.players → p2 ∈ s.players →
    pos1 ∈ stackOf s p1 → pos2 ∈ stackOf s p2 → flatOf s pos1 = flatOf s pos2 →
    p1 = p2
  stack_nodup : ∀ p ∈ s.players, (stackOf s p).Nodup

theorem busyAt_eq_flat (s : BoardState) (pos1 pos2 : Pos)
    (h : flatOf s pos1 = flatOf s pos2) : busyAt s pos1 = busyAt s pos2 := by
  unfold busyAt getCards
  rw [show pos1.row * s.cols + pos1.col = pos2.row * s.cols + pos2.col from h]

theorem WF.toBusyStackInv {s : BoardState} (h : WF s) : BusyStackInv s := by
  constructor
  · intro pos hr hc
    constructor
    · intro hb
      obtain ⟨p, hp, hmem⟩ := h.stack_of_busy pos hr hc hb
      refine ⟨p, ⟨hp, hmem⟩, ?_⟩
      rintro q ⟨hq, hqm⟩
      exact h.unique_flat q p pos pos hq hp hqm hmem rfl
    · rintro ⟨q, ⟨hq, hqm⟩, _⟩
      exact h.busy_of_stack q hq pos hqm
  · intro p1 p2 pos h1 h2 hm1 hm2
    exact h.unique_flat p1 p2 pos pos h1 h2 hm1 hm2 rfl

/-- After updateCard, busyAt changes only at the written flat index, where it
becomes the busy flag produced by f. -/
theorem busyAt_updateCard (s : BoardState) (r c : Nat) (f : Card → Card)
    (pos : Pos) :
    busyAt (updateCard s r c f) pos =
      if flatOf s pos = r * s.cols + c
      then ((getCards s pos.row pos.col).map (fun d => (f d).busy)).getD false
      else busyAt s pos := by
  unfold busyAt
  rw [getCards_updateCard]
  unfold flatOf
  by_cases hf : pos.row * s.cols + pos.col = r * s.cols + c
  · rw [if_pos hf, if_pos hf]
    rcases getCards s pos.row pos.col with _ | card <;> rfl
  · rw [if_neg hf, if_neg hf]

theorem busyAt_removeCard (s : BoardState) (r c : Nat) (pos : Pos) :
    busyAt (removeCard s r c).1 pos =
      if flatOf s pos = r * s.cols + c then false else busyAt s pos := by
  unfold busyAt
  rw [getCards_removeCard]
  unfold flatOf
  by_cases hf : pos.row * s.cols + pos.col = r * s.cols + c
  · rw [if_pos hf, if_pos hf]
  · rw [if_neg hf, if_neg hf]

@[simp] theorem busyAt_setStack (s : BoardState) (p : String) (v : List Pos)
    (pos : Pos) : busyAt (setStack s p v) pos = busyAt s pos := rfl

@[simp] theorem busyAt_setQueue (s : BoardState) (p : String) (v : List Pos)
    (pos : Pos) : busyAt (setQueue s p v) pos = busyAt s pos := rfl

theorem busyAt_pushRemoval (s : BoardState) (p : String) (ps : List Pos)
    (pos : Pos) : busyAt (pushRemoval s p ps) pos = busyAt s pos := by
  unfold busyAt
  rw [getCards_pushRemoval]

@[simp] theorem busyAt_processRemovalQueue (s : BoardState) (r c : Nat)
    (pos : Pos) : busyAt (processRemovalQueue s r c) pos = busyAt s pos := rfl

theorem stackOf_setStack_self (s : BoardState) (p : String) (v : List Pos) :
    stackOf (setStack s p v) p = v := by
  unfold stackOf
  rw [setStack_turnStack, getAssoc_setAssoc_self]
  rfl

theorem stackOf_setStack_ne (s : BoardState) (p q : String) (v : List Pos)
    (h : q ≠ p) : stackOf (setStack s p v) q = stackOf s q := by
  unfold stackOf
  rw [setStack_turnStack, getAssoc_setAssoc_ne _ _ _ _ h]

theorem stackOf_eq_of_turnStack_eq {s s' : BoardState}
    (h : s'.turnStack = s.turnStack) (q : String) : stackOf s' q = stackOf s q := by
  unfold stackOf
  rw [h]

/-- Transfer of WF along a state change that keeps players, dimensions, turn
stacks and every busy flag (only card faces/values or queue contents moved). -/
theorem WF_transfer {s s' : BoardState} (h : WF s)
    (hplayers : s'.players = s.players)
    (hrows : s'.rows = s.rows)
    (hcols : s'.cols = s.cols)
    (hstack : s'.turnStack = s.turnStack)
    (hqsome : ∀ p ∈ s'.players, (getAssoc s'.removalQueue p).isSome = true)
    (hbusy : ∀ pos, busyAt s' pos = busyAt s pos) : WF s' := by
  have hst : ∀ q, stackOf s' q = stackOf s q := stackOf_eq_of_turnStack_eq hstack
  have hfl : ∀ pos, flatOf s' pos = flatOf s pos := by
    intro pos; unfold flatOf; rw [hcols]
  constructor
  · intro p hp
    rw [hstack]
    exact h.stack_some p (hplayers ▸ hp)
  · exact hqsome
  · intro p hp pos hpos
    rw [hcols]
    exact h.stack_cols p (hplayers ▸ hp) pos ((hst p) ▸ hpos)
  · intro p hp pos hpos
    rw [hbusy]
    exact h.busy_of_stack p (hplayers ▸ hp) pos ((hst p) ▸ hpos)
  · intro pos hr hc hb
    obtain ⟨p, hp, hm⟩ := h.stack_of_busy pos (hrows ▸ hr) (hcols ▸ hc) ((hbusy pos) ▸ hb)
    exact ⟨p, hplayers ▸ hp, (hst p) ▸ hm⟩
  · intro p1 p2 pos1 pos2 h1 h2 hm1 hm2 hfe
    exact h.unique_flat p1 p2 pos1 pos2 (hplayers ▸ h1) (hplayers ▸ h2)
      ((hst p1) ▸ hm1) ((hst p2) ▸ hm2) (by rw [← hfl, ← hfl]; exact hfe)
  · intro p hp
    rw [hst p]
    exact h.stack_nodup p (hplayers ▸ hp)

theorem WF_addPlayer {s : BoardState} (h : WF s) (p : String)
    (hp : p ∉ s.players) : WF (addPlayer s p) := by
  have hstk : ∀ q, stackOf (addPlayer s p) q =
      if q = p then [] else stackOf s q := by
    intro q
    by_cases hq : q = p
    · subst hq
      simp [addPlayer, stackOf, getAssoc_setAssoc_self]
    · simp [addPlayer, stackOf, getAssoc_setAssoc_ne _ _ _ _ hq, hq]
  have hmem : ∀ q, q ∈ (addPlayer s p).players ↔ q ∈ s.players ∨ q = p := by
    intro q
    show q ∈ s.players ++ [p] ↔ _
    simp
  constructor
  · intro q hq
    show (getAssoc (setAssoc s.turnStack p []) q).isSome = true
    by_cases hqp : q = p
    · subst hqp; rw [getAssoc_setAssoc_self]; rfl
    · rw [getAssoc_setAssoc_ne _ _ _ _ hqp]
      exact h.stack_some q (((hmem q).1 hq).resolve_right hqp)
  · intro q hq
    show (getAssoc (setAssoc s.removalQueue p []) q).isSome = true
    by_cases hqp : q = p
    · subst hqp; rw [getAssoc_setAssoc_self]; rfl
    · rw [getAssoc_setAssoc_ne _ _ _ _ hqp]
      exact h.queue_some q (((hmem q).1 hq).resolve_right hqp)
  · intro q hq pos hpos
    rw [hstk q] at hpos
    by_cases hqp : q = p
    · rw [if_pos hqp] at hpos; simp at hpos
    · rw [if_neg hqp] at hpos
      exact h.stack_cols q (((hmem q).1 hq).resolve_right hqp) pos hpos
  · intro q hq pos hpos
    rw [hstk q] at hpos
    by_cases hqp : q = p
    · rw [if_pos hqp] at hpos; simp at hpos
    · rw [if_neg hqp] at hpos
      exact h.busy_of_stack q (((hmem q).1 hq).resolve_right hqp) pos hpos
  · intro pos hr hc hb
    obtain ⟨q, hq, hm⟩ := h.stack_of_busy pos hr hc hb
    have hqp : q ≠ p := fun he => hp (he ▸ hq)
    refine ⟨q, (hmem q).2 (Or.inl hq), ?_⟩
    rw [hstk q, if_neg hqp]
    exact hm
  · intro p1 p2 pos1 pos2 h1 h2 hm1 hm2 hfe
    rw [hstk p1] at hm1
    rw [hstk p2] at hm2
    by_cases h1p : p1 = p
    · rw [if_pos h1p] at hm1; simp at hm1
    · by_cases h2p : p2 = p
      · rw [if_pos h2p] at hm2; simp at hm2
      · rw [if_neg h1p] at hm1
        rw [if_neg h2p] at hm2
        exact h.unique_flat p1 p2 pos1 pos2 (((hmem p1).1 h1).resolve_right h1p)
          (((hmem p2).1 h2).resolve_right h2p) hm1 hm2 hfe
  · intro q hq
    rw [hstk q]
    by_cases hqp : q = p
    · rw [if_pos hqp]; exact List.nodup_nil
    · rw [if_neg hqp]
      exact h.stack_nodup q (((hmem q).1 hq).resolve_right hqp)

theorem WF_processRemovalQueue {s : BoardState} (h : WF s) (r c : Nat) :
    WF (processRemovalQueue s r c) := by
  refine WF_transfer h rfl rfl rfl rfl ?_ (fun pos => rfl)
  intro p hp
  rw [getAssoc_processRemovalQueue]
  have hq := h.queue_some p hp
  rcases hgq : getAssoc s.removalQueue p with _ | q
  · rw [hgq] at hq; simp at hq
  · rfl

theorem WF_drainBacklog {s : BoardState} (h : WF s) (l : List Pos) :
    WF (drainBacklog s l).1 := by
  induction l generalizing s with
  | nil => exact h
  | cons pos rest ih =>
    show WF (drainBacklog s (pos :: rest)).1
    unfold drainBacklog
    rcases hcd : getCards s pos.row pos.col with _ | c
    · exact ih h
    · simp only []
      by_cases hb : c.busy
      · rw [if_neg (by simp [hb] : ¬((!c.busy) = true))]
        exact ih h
      · rw [if_pos (by simp [hb] : (!c.busy) = true)]
        show WF (drainBacklog (updateCard s pos.row pos.col
          (fun c => { c with faceUp := false, busy := false })) rest).1
        apply ih
        refine WF_transfer h (updateCard_players _ _ _ _) (updateCard_rows _ _ _ _)
          (updateCard_cols _ _ _ _) (updateCard_turnStack _ _ _ _) ?_ ?_
        · intro q hq
          rw [updateCard_removalQueue]
          exact h.queue_some q (by rwa [updateCard_players] at hq)
        · intro pos'
          rw [busyAt_updateCard]
          by_cases hf : flatOf s pos' = pos.row * s.cols + pos.col
          · rw [if_pos hf, busyAt_eq_flat s pos' pos hf]
            have hR : busyAt s pos = false := by
              unfold busyAt; rw [hcd]; simpa using hb
            rw [hR]
            rcases getCards s pos'.row pos'.col with _ | d <;> rfl
          · rw [if_neg hf]

/-- WF is preserved when a player releases their first held card: the head of
their stack is dropped, the card it addresses loses its busy flag, and the
position joins their removal queue (the shared mutation of both throw paths
of preprocessWaitForCardAvailable). -/
theorem WF_release {s : BoardState} (h : WF s) (p : String) (pos1 : Pos)
    (rest : List Pos) (hp : p ∈ s.players)
    (hstk : getAssoc s.turnStack p = some (pos1 :: rest)) :
    WF (pushRemoval (updateCard (setStack s p rest) pos1.row pos1.col
      (fun c => { c with busy := false })) p [pos1]) := by
  have hSOf : stackOf s p = pos1 :: rest := by
    unfold stackOf; rw [hstk]; rfl
  have hmem1 : pos1 ∈ stackOf s p := by rw [hSOf]; exact List.mem_cons_self _ _
  have hnodup : (pos1 :: rest).Nodup := hSOf ▸ h.stack_nodup p hp
  have hrest : ∀ pos ∈ rest, pos ∈ stackOf s p := by
    intro pos hm; rw [hSOf]; exact List.mem_cons_of_mem _ hm
  have hcols3 : (pushRemoval (updateCard (setStack s p rest) pos1.row pos1.col
      (fun c => { c with busy := false })) p [pos1]).cols = s.cols := by simp
  have hstk3 : ∀ q, stackOf (pushRemoval (updateCard (setStack s p rest)
      pos1.row pos1.col (fun c => { c with busy := false })) p [pos1]) q =
      if q = p then rest else stackOf s q := by
    intro q
    unfold stackOf
    rw [pushRemoval_turnStack, updateCard_turnStack, setStack_turnStack]
    by_cases hq : q = p
    · subst hq; rw [getAssoc_setAssoc_self, if_pos rfl]
      rfl
    · rw [getAssoc_setAssoc_ne _ _ _ _ hq, if_neg hq]
  have hbusy3 : ∀ pos, busyAt (pushRemoval (updateCard (setStack s p rest)
      pos1.row pos1.col (fun c => { c with busy := false })) p [pos1]) pos =
      if flatOf s pos = flatOf s pos1 then false else busyAt s pos := by
    intro pos
    rw [busyAt_pushRemoval, busyAt_updateCard]
    have hfl : flatOf (setStack s p rest) pos = flatOf s pos := rfl
    rw [hfl]
    show (if flatOf s pos = pos1.row * s.cols + pos1.col then _ else _) = _
    by_cases hf : flatOf s pos = flatOf s pos1
    · rw [if_pos (by exact hf), if_pos hf]
      rcases getCards (setStack s p rest) pos.row pos.col with _ | d <;> rfl
    · rw [if_neg (by exact hf), if_neg hf]
      rfl
  have hflat_ne_of_rest : ∀ pos ∈ rest, flatOf s pos ≠ flatOf s pos1 := by
    intro pos hm hf
    obtain ⟨h1, h2⟩ := flat_inj (h.stack_cols p hp pos (hrest pos hm))
      (h.stack_cols p hp pos1 hmem1) hf
    have : pos = pos1 := by cases pos; cases pos1; simp_all
    subst this
    exact (List.nodup_cons.1 hnodup).1 hm
  constructor
  · intro q hq
    rw [pushRemoval_turnStack, updateCard_turnStack, setStack_turnStack]
    by_cases hqp : q = p
    · subst hqp; rw [getAssoc_setAssoc_self]; rfl
    · rw [getAssoc_setAssoc_ne _ _ _ _ hqp]
      exact h.stack_some q (by simpa using hq)
  · intro q hq
    have hq' : q ∈ s.players := by simpa using hq
    by_cases hqp : q = p
    · subst hqp
      rw [getAssoc_pushRemoval_self]
      have := h.queue_some q hq'
      rcases hgq : getAssoc (updateCard (setStack s q rest) pos1.row pos1.col
          (fun c => { c with busy := false })).removalQueue q with _ | l
      · rw [updateCard_removalQueue, setStack_removalQueue] at hgq
        rw [hgq] at this; simp at this
      · rfl
    · rw [getAssoc_pushRemoval_ne _ _ _ _ (Ne.symm hqp), updateCard_removalQueue,
        setStack_removalQueue]
      exact h.queue_some q hq'
  · intro q hq pos hpos
    rw [hstk3 q] at hpos
    rw [hcols3]
    by_cases hqp : q = p
    · rw [if_pos hqp] at hpos
      exact h.stack_cols p hp pos (hrest pos hpos)
    · rw [if_neg hqp] at hpos
      exact h.stack_cols q (by simpa using hq) pos hpos
  · intro q hq pos hpos
    rw [hstk3 q] at hpos
    rw [hbusy3 pos]
    by_cases hqp : q = p
    · rw [if_pos hqp] at hpos
      rw [if_neg (hflat_ne_of_rest pos hpos)]
      exact h.busy_of_stack p hp pos (hrest pos hpos)
    · rw [if_neg hqp] at hpos
      have hq' : q ∈ s.players := by simpa using hq
      have hfne : flatOf s pos ≠ flatOf s pos1 := by
        intro hf
        exact hqp (h.unique_flat q p pos pos1 hq' hp hpos hmem1 hf)
      rw [if_neg hfne]
      exact h.busy_of_stack q hq' pos hpos
  · intro pos hr hc hb
    rw [hbusy3 pos] at hb
    by_cases hf : flatOf s pos = flatOf s pos1
    · rw [if_pos hf] at hb; exact absurd hb (by simp)
    · rw [if_neg hf] at hb
      obtain ⟨q, hq, hm⟩ := h.stack_of_busy pos (by simpa using hr)
        (by simpa using hc) hb
      refine ⟨q, by simpa using hq, ?_⟩
      rw [hstk3 q]
      by_cases hqp : q = p
      · subst hqp
        rw [if_pos rfl]
        rw [hSOf] at hm
        rcases List.mem_cons.1 hm with hm | hm
        · exact absurd (hm ▸ rfl) hf
        · exact hm
      · rw [if_neg hqp]
        exact hm
  · intro p1 p2 pos1' pos2' h1 h2 hm1 hm2 hfe
    rw [hstk3 p1] at hm1
    rw [hstk3 p2] at hm2
    have hm1' : pos1' ∈ stackOf s p1 := by
      by_cases h1p : p1 = p
      · rw [if_pos h1p] at hm1; exact h1p ▸ hrest pos1' hm1
      · rwa [if_neg h1p] at hm1
    have hm2' : pos2' ∈ stackOf s p2 := by
      by_cases h2p : p2 = p
      · rw [if_pos h2p] at hm2; exact h2p ▸ hrest pos2' hm2
      · rwa [if_neg h2p] at hm2
    exact h.unique_flat p1 p2 pos1' pos2' (by simpa using h1) (by simpa using h2)
      hm1' hm2' (by simpa [flatOf, hcols3] using hfe)
  · intro q hq
    rw [hstk3 q]
    by_cases hqp : q = p
    · rw [if_pos hqp]
      exact (List.nodup_cons.1 hnodup).2
    · rw [if_neg hqp]
      exact h.stack_nodup q (by simpa using hq)

theorem WF_preprocess {s : BoardState} (h : WF s) (p : String) (row col : Nat)
    (hp : p ∈ s.players) : WF (preprocess s p row col).2.1 := by
  unfold preprocess
  simp only []
  rcases hstk : getAssoc s.turnStack p with _ | st
  · exact h
  · rcases hcd : getCards s row col with _ | c
    · rcases st with _ | ⟨pos1, rest⟩
      · exact h
      · exact WF_release h p pos1 rest hp hstk
    · simp only []
      by_cases hlen : (st.length == 1) = true
      · rw [if_pos hlen]
        by_cases hbm : (st.any fun pos => pos.row == row && pos.col == col) = true
        · rw [if_pos hbm]; exact h
        · rw [if_neg hbm]
          by_cases hcb : (!c.busy) = true
          · rw [if_pos hcb]; exact h
          · rw [if_neg hcb]
            rcases st with _ | ⟨pos1, rest⟩
            · exact h
            · exact WF_release h p pos1 rest hp hstk
      · rw [if_neg hlen]; exact h

theorem drainBacklog_players (s : BoardState) (l : List Pos) :
    (drainBacklog s l).1.players = s.players := by
  induction l generalizing s with
  | nil => rfl
  | cons pos rest ih =>
    unfold drainBacklog
    rcases getCards s pos.row pos.col with _ | c
    · exact ih s
    · simp only []
      by_cases hb : (!c.busy) = true
      · rw [if_pos hb]
        show (drainBacklog (updateCard s pos.row pos.col
          (fun c => { c with faceUp := false, busy := false })) rest).1.players = _
        rw [ih _, updateCard_players]
      · rw [if_neg hb]
        exact ih s

theorem drainBacklog_turnStack (s : BoardState) (l : List Pos) :
    (drainBacklog s l).1.turnStack = s.turnStack := by
  induction l generalizing s with
  | nil => rfl
  | cons pos rest ih =>
    unfold drainBacklog
    rcases getCards s pos.row pos.col with _ | c
    · exact ih s
    · simp only []
      by_cases hb : (!c.busy) = true
      · rw [if_pos hb]
        show (drainBacklog (updateCard s pos.row pos.col
          (fun c => { c with faceUp := false, busy := false })) rest).1.turnStack = _
        rw [ih _, updateCard_turnStack]
      · rw [if_neg hb]
        exact ih s

/-- WF is preserved by removing a finished matched pair: the two stack
entries are dropped and the two cards they address leave the board. -/
theorem WF_removePair {s : BoardState} (h : WF s) (p : String)
    (first second : Pos) (rest : List Pos) (hp : p ∈ s.players)
    (hstk : getAssoc s.turnStack p = some (first :: second :: rest)) :
    WF (removeCard (removeCard (setStack s p rest) first.row first.col).1
      second.row second.col).1 := by
  have hSOf : stackOf s p = first :: second :: rest := by
    unfold stackOf; rw [hstk]; rfl
  have hm1 : first ∈ stackOf s p := by rw [hSOf]; exact List.mem_cons_self _ _
  have hm2 : second ∈ stackOf s p := by
    rw [hSOf]; exact List.mem_cons_of_mem _ (List.mem_cons_self _ _)
  have hnodup : (first :: second :: rest).Nodup := hSOf ▸ h.stack_nodup p hp
  have hrest : ∀ pos ∈ rest, pos ∈ stackOf s p := by
    intro pos hm
    rw [hSOf]
    exact List.mem_cons_of_mem _ (List.mem_cons_of_mem _ hm)
  have hstk3 : ∀ q, stackOf (removeCard (removeCard (setStack s p rest)
      first.row first.col).1 second.row second.col).1 q =
      if q = p then rest else stackOf s q := by
    intro q
    unfold stackOf
    rw [removeCard_turnStack, removeCard_turnStack, setStack_turnStack]
    by_cases hq : q = p
    · subst hq; rw [getAssoc_setAssoc_self, if_pos rfl]; rfl
    · rw [getAssoc_setAssoc_ne _ _ _ _ hq, if_neg hq]
  have hbusy3 : ∀ pos, busyAt (removeCard (removeCard (setStack s p rest)
      first.row first.col).1 second.row second.col).1 pos =
      if flatOf s pos = flatOf s first ∨ flatOf s pos = flatOf s second
      then false else busyAt s pos := by
    intro pos
    rw [busyAt_removeCard, busyAt_removeCard]
    by_cases h2 : flatOf s pos = flatOf s second
    · rw [if_pos (by exact h2), if_pos (Or.inr h2)]
    · rw [if_neg (by exact h2)]
      by_cases h1 : flatOf s pos = flatOf s first
      · rw [if_pos (by exact h1), if_pos (Or.inl h1)]
      · rw [if_neg (by exact h1), if_neg (by tauto)]
        rfl
  have hdd : ∀ pos ∈ rest,
      ¬(flatOf s pos = flatOf s first ∨ flatOf s pos = flatOf s second) := by
    rintro pos hm (hf | hf)
    · obtain ⟨e1, e2⟩ := flat_inj (h.stack_cols p hp pos (hrest pos hm))
        (h.stack_cols p hp first hm1) hf
      have hpe : pos = first := by cases pos; cases first; simp_all
      subst hpe
      exact (List.nodup_cons.1 hnodup).1 (List.mem_cons_of_mem _ hm)
    · obtain ⟨e1, e2⟩ := flat_inj (h.stack_cols p hp pos (hrest pos hm))
        (h.stack_cols p hp second hm2) hf
      have hpe : pos = second := by cases pos; cases second; simp_all
      subst hpe
      exact (List.nodup_cons.1 (List.nodup_cons.1 hnodup).2).1 hm
  constructor
  · intro q hq
    rw [removeCard_turnStack, removeCard_turnStack, setStack_turnStack]
    by_cases hqp : q = p
    · subst hqp; rw [getAssoc_setAssoc_self]; rfl
    · rw [getAssoc_setAssoc_ne _ _ _ _ hqp]
      exact h.stack_some q (by simpa using hq)
  · intro q hq
    rw [removeCard_removalQueue, removeCard_removalQueue, setStack_removalQueue]
    exact h.queue_some q (by simpa using hq)
  · intro q hq pos hpos
    rw [hstk3 q] at hpos
    show pos.col < s.cols
    by_cases hqp : q = p
    · rw [if_pos hqp] at hpos
      exact h.stack_cols p hp pos (hrest pos hpos)
    · rw [if_neg hqp] at hpos
      exact h.stack_cols q (by simpa using hq) pos hpos
  · intro q hq pos hpos
    rw [hstk3 q] at hpos
    rw [hbusy3 pos]
    by_cases hqp : q = p
    · rw [if_pos hqp] at hpos
      rw [if_neg (hdd pos hpos)]
      exact h.busy_of_stack p hp pos (hrest pos hpos)
    · rw [if_neg hqp] at hpos
      have hq' : q ∈ s.players := by simpa using hq
      have hfne : ¬(flatOf s pos = flatOf s first ∨
          flatOf s pos = flatOf s second) := by
        rintro (hf | hf)
        · exact hqp (h.unique_flat q p pos first hq' hp hpos hm1 hf)
        · exact hqp (h.unique_flat q p pos second hq' hp hpos hm2 hf)
      rw [if_neg hfne]
      exact h.busy_of_stack q hq' pos hpos
  · intro pos hr hc hb
    rw [hbusy3 pos] at hb
    by_cases hf : flatOf s pos = flatOf s first ∨ flatOf s pos = flatOf s second
    · rw [if_pos hf] at hb; exact absurd hb (by simp)
    · rw [if_neg hf] at hb
      obtain ⟨q, hq, hm⟩ := h.stack_of_busy pos (by simpa using hr)
        (by simpa using hc) hb
      refine ⟨q, by simpa using hq, ?_⟩
      rw [hstk3 q]
      by_cases hqp : q = p
      · subst hqp
        rw [if_pos rfl]
        rw [hSOf] at hm
        rcases List.mem_cons.1 hm with hm | hm
        · exact absurd (Or.inl (hm ▸ rfl)) hf
        · rcases List.mem_cons.1 hm with hm | hm
          · exact absurd (Or.inr (hm ▸ rfl)) hf
          · exact hm
      · rw [if_neg hqp]
        exact hm
  · intro p1 p2 pos1' pos2' h1 h2 hmm1 hmm2 hfe
    rw [hstk3 p1] at hmm1
    rw [hstk3 p2] at hmm2
    have hmm1' : pos1' ∈ stackOf s p1 := by
      by_cases h1p : p1 = p
      · rw [if_pos h1p] at hmm1; exact h1p ▸ hrest pos1' hmm1
      · rwa [if_neg h1p] at hmm1
    have hmm2' : pos2' ∈ stackOf s p2 := by
      by_cases h2p : p2 = p
      · rw [if_pos h2p] at hmm2; exact h2p ▸ hrest pos2' hmm2
      · rwa [if_neg h2p] at hmm2
    exact h.unique_flat p1 p2 pos1' pos2' (by simpa using h1) (by simpa using h2)
      hmm1' hmm2' (by simpa [flatOf] using hfe)
  · intro q hq
    rw [hstk3 q]
    by_cases hqp : q = p
    · rw [if_pos hqp]
      exact ((List.nodup_cons.1 (List.nodup_cons.1 hnodup).2).2)
    · rw [if_neg hqp]
      exact h.stack_nodup q (by simpa using hq)

theorem WF_setQueue {s : BoardState} (h : WF s) (p : String) (v : List Pos) :
    WF (setQueue s p v) := by
  refine WF_transfer h rfl rfl rfl rfl ?_ (fun _ => rfl)
  intro q hq
  rw [setQueue_removalQueue]
  by_cases hqp : q = p
  · subst hqp; rw [getAssoc_setAssoc_self]; rfl
  · rw [getAssoc_setAssoc_ne _ _ _ _ hqp]
    exact h.queue_some q (by simpa using hq)

theorem WF_processPreviousPair {s : BoardState} (h : WF s) (p : String)
    (hp : p ∈ s.players) : WF (processPreviousPair s p).1 := by
  unfold processPreviousPair
  simp only []
  rcases hgq : getAssoc s.removalQueue p with _ | qq
  · simp only []
    rcases hst1 : getAssoc s.turnStack p with _ | stack
    · exact h
    · simp only []
      by_cases hlen : stack.length < 2
      · rw [if_pos hlen]; exact h
      · rw [if_neg hlen]
        match stack, hst1 with
        | [], hst1 => exact absurd (by simp) hlen
        | [x], hst1 => exact absurd (by simp) hlen
        | first :: second :: rest, hst1 =>
          simp only []
          have hbf : busyAt s first = true := h.busy_of_stack p hp first
            (by unfold stackOf; rw [hst1]; exact List.mem_cons_self _ _)
          have hbs : busyAt s second = true := h.busy_of_stack p hp second
            (by unfold stackOf; rw [hst1]
                exact List.mem_cons_of_mem _ (List.mem_cons_self _ _))
          rcases hc1 : getCards (setStack s p rest) first.row first.col with _ | c1
          · exact absurd hbf (by
              unfold busyAt
              rw [show getCards s first.row first.col = none from hc1]
              simp)
          · rcases hc2 : getCards (setStack s p rest) second.row second.col
                with _ | c2
            · exact absurd hbs (by
                unfold busyAt
                rw [show getCards s second.row second.col = none from hc2]
                simp)
            · simp only []
              exact WF_removePair h p first second rest hp hst1
  · simp only []
    have hW2 : WF (drainBacklog (setQueue s p []) qq).1 :=
      WF_drainBacklog (WF_setQueue h p []) qq
    have hp2 : p ∈ (drainBacklog (setQueue s p []) qq).1.players := by
      rw [drainBacklog_players]; exact hp
    rcases hst1 : getAssoc (drainBacklog (setQueue s p []) qq).1.turnStack p
        with _ | stack
    · exact hW2
    · simp only []
      by_cases hlen : stack.length < 2
      · rw [if_pos hlen]; exact hW2
      · rw [if_neg hlen]
        match stack, hst1 with
        | [], hst1 => exact absurd (by simp) hlen
        | [x], hst1 => exact absurd (by simp) hlen
        | first :: second :: rest, hst1 =>
          simp only []
          have hbf : busyAt (drainBacklog (setQueue s p []) qq).1 first = true :=
            hW2.busy_of_stack p hp2 first
              (by unfold stackOf; rw [hst1]; exact List.mem_cons_self _ _)
          have hbs : busyAt (drainBacklog (setQueue s p []) qq).1 second = true :=
            hW2.busy_of_stack p hp2 second
              (by unfold stackOf; rw [hst1]
                  exact List.mem_cons_of_mem _ (List.mem_cons_self _ _))
          rcases hc1 : getCards (setStack (drainBacklog (setQueue s p []) qq).1
              p rest) first.row first.col with _ | c1
          · exact absurd hbf (by
              unfold busyAt
              rw [show getCards (drainBacklog (setQueue s p []) qq).1
                first.row first.col = none from hc1]
              simp)
          · rcases hc2 : getCards (setStack (drainBacklog (setQueue s p []) qq).1
                p rest) second.row second.col with _ | c2
            · exact absurd hbs (by
                unfold busyAt
                rw [show getCards (drainBacklog (setQueue s p []) qq).1
                  second.row second.col = none from hc2]
                simp)
            · simp only []
              exact WF_removePair hW2 p first second rest hp2 hst1

/-- WF is preserved by the mismatch branch of processStack: the pair leaves
the stack, moves to the removal queue and both busy flags are cleared. -/
theorem WF_unmatched {s : BoardState} (h : WF s) (p : String)
    (first second : Pos) (rest : List Pos) (hp : p ∈ s.players)
    (hstk : getAssoc s.turnStack p = some (first :: second :: rest)) :
    WF (updateCard (updateCard (pushRemoval (setStack s p rest) p
      [first, second]) first.row first.col (fun c => { c with busy := false }))
      second.row second.col (fun c => { c with busy := false })) := by
  have hSOf : stackOf s p = first :: second :: rest := by
    unfold stackOf; rw [hstk]; rfl
  have hm1 : first ∈ stackOf s p := by rw [hSOf]; exact List.mem_cons_self _ _
  have hm2 : second ∈ stackOf s p := by
    rw [hSOf]; exact List.mem_cons_of_mem _ (List.mem_cons_self _ _)
  have hnodup : (first :: second :: rest).Nodup := hSOf ▸ h.stack_nodup p hp
  have hrest : ∀ pos ∈ rest, pos ∈ stackOf s p := by
    intro pos hm
    rw [hSOf]
    exact List.mem_cons_of_mem _ (List.mem_cons_of_mem _ hm)
  have hstk3 : ∀ q, stackOf (updateCard (updateCard (pushRemoval
      (setStack s p rest) p [first, second]) first.row first.col
      (fun c => { c with busy := false })) second.row second.col
      (fun c => { c with busy := false })) q =
      if q = p then rest else stackOf s q := by
    intro q
    unfold stackOf
    rw [updateCard_turnStack, updateCard_turnStack, pushRemoval_turnStack,
      setStack_turnStack]
    by_cases hq : q = p
    · subst hq; rw [getAssoc_setAssoc_self, if_pos rfl]; rfl
    · rw [getAssoc_setAssoc_ne _ _ _ _ hq, if_neg hq]
  have hbusy3 : ∀ pos, busyAt (updateCard (updateCard (pushRemoval
      (setStack s p rest) p [first, second]) first.row first.col
      (fun c => { c with busy := false })) second.row second.col
      (fun c => { c with busy := false })) pos =
      if flatOf s pos = flatOf s first ∨ flatOf s pos = flatOf s second
      then false else busyAt s pos := by
    intro pos
    rw [busyAt_updateCard, busyAt_updateCard, busyAt_pushRemoval,
      busyAt_setStack]
    simp only [flatOf, updateCard_cols, pushRemoval_cols, setStack_cols]
    by_cases h2 : pos.row * s.cols + pos.col = second.row * s.cols + second.col
    · rw [if_pos h2, if_pos (Or.inr h2)]
      rcases getCards (updateCard (pushRemoval (setStack s p rest) p
        [first, second]) first.row first.col
        (fun c => { c with busy := false })) pos.row pos.col with _ | d <;> rfl
    · rw [if_neg h2]
      by_cases h1 : pos.row * s.cols + pos.col = first.row * s.cols + first.col
      · rw [if_pos h1, if_pos (Or.inl h1)]
        rcases getCards (pushRemoval (setStack s p rest) p [first, second])
          pos.row pos.col with _ | d <;> rfl
      · rw [if_neg h1, if_neg (by tauto)]
  have hdd : ∀ pos ∈ rest,
      ¬(flatOf s pos = flatOf s first ∨ flatOf s pos = flatOf s second) := by
    rintro pos hm (hf | hf)
    · obtain ⟨e1, e2⟩ := flat_inj (h.stack_cols p hp pos (hrest pos hm))
        (h.stack_cols p hp first hm1) hf
      have hpe : pos = first := by cases pos; cases first; simp_all
      subst hpe
      exact (List.nodup_cons.1 hnodup).1 (List.mem_cons_of_mem _ hm)
    · obtain ⟨e1, e2⟩ := flat_inj (h.stack_cols p hp pos (hrest pos hm))
        (h.stack_cols p hp second hm2) hf
      have hpe : pos = second := by cases pos; cases second; simp_all
      subst hpe
      exact (List.nodup_cons.1 (List.nodup_cons.1 hnodup).2).1 hm
  constructor
  · intro q hq
    rw [updateCard_turnStack, updateCard_turnStack, pushRemoval_turnStack,
      setStack_turnStack]
    by_cases hqp : q = p
    · subst hqp; rw [getAssoc_setAssoc_self]; rfl
    · rw [getAssoc_setAssoc_ne _ _ _ _ hqp]
      exact h.stack_some q (by simpa using hq)
  · intro q hq
    have hq' : q ∈ s.players := by simpa using hq
    rw [updateCard_removalQueue, updateCard_removalQueue]
    by_cases hqp : q = p
    · subst hqp
      rw [getAssoc_pushRemoval_self]
      have := h.queue_some q hq'
      rcases hgq : getAssoc (setStack s q rest).removalQueue q with _ | l
      · rw [setStack_removalQueue] at hgq
        rw [hgq] at this; simp at this
      · rfl
    · rw [getAssoc_pushRemoval_ne _ _ _ _ (Ne.symm hqp), setStack_removalQueue]
      exact h.queue_some q hq'
  · intro q hq pos hpos
    rw [hstk3 q] at hpos
    simp only [updateCard_cols, pushRemoval_cols, setStack_cols]
    by_cases hqp : q = p
    · rw [if_pos hqp] at hpos
      exact h.stack_cols p hp pos (hrest pos hpos)
    · rw [if_neg hqp] at hpos
      exact h.stack_cols q (by simpa using hq) pos hpos
  · intro q hq pos hpos
    rw [hstk3 q] at hpos
    rw [hbusy3 pos]
    by_cases hqp : q = p
    · rw [if_pos hqp] at hpos
      rw [if_neg (hdd pos hpos)]
      exact h.busy_of_stack p hp pos (hrest pos hpos)
    · rw [if_neg hqp] at hpos
      have hq' : q ∈ s.players := by simpa using hq
      have hfne : ¬(flatOf s pos = flatOf s first ∨
          flatOf s pos = flatOf s second) := by
        rintro (hf | hf)
        · exact hqp (h.unique_flat q p pos first hq' hp hpos hm1 hf)
        · exact hqp (h.unique_flat q p pos second hq' hp hpos hm2 hf)
      rw [if_neg hfne]
      exact h.busy_of_stack q hq' pos hpos
  · intro pos hr hc hb
    rw [hbusy3 pos] at hb
    by_cases hf : flatOf s pos = flatOf s first ∨ flatOf s pos = flatOf s second
    · rw [if_pos hf] at hb; exact absurd hb (by simp)
    · rw [if_neg hf] at hb
      obtain ⟨q, hq, hm⟩ := h.stack_of_busy pos (by simpa using hr)
        (by simpa using hc) hb
      refine ⟨q, by simpa using hq, ?_⟩
      rw [hstk3 q]
      by_cases hqp : q = p
      · subst hqp
        rw [if_pos rfl]
        rw [hSOf] at hm
        rcases List.mem_cons.1 hm with hm | hm
        · exact absurd (Or.inl (hm ▸ rfl)) hf
        · rcases List.mem_cons.1 hm with hm | hm
          · exact absurd (Or.inr (hm ▸ rfl)) hf
          · exact hm
      · rw [if_neg hqp]
        exact hm
  · intro p1 p2 pos1' pos2' h1 h2 hmm1 hmm2 hfe
    rw [hstk3 p1] at hmm1
    rw [hstk3 p2] at hmm2
    have hmm1' : pos1' ∈ stackOf s p1 := by
      by_cases h1p : p1 = p
      · rw [if_pos h1p] at hmm1; exact h1p ▸ hrest pos1' hmm1
      · rwa [if_neg h1p] at hmm1
    have hmm2' : pos2' ∈ stackOf s p2 := by
      by_cases h2p : p2 = p
      · rw [if_pos h2p] at hmm2; exact h2p ▸ hrest pos2' hmm2
      · rwa [if_neg h2p] at hmm2
    exact h.unique_flat p1 p2 pos1' pos2' (by simpa using h1) (by simpa using h2)
      hmm1' hmm2' (by simpa [flatOf] using hfe)
  · intro q hq
    rw [hstk3 q]
    by_cases hqp : q = p
    · rw [if_pos hqp]
      exact ((List.nodup_cons.1 (List.nodup_cons.1 hnodup).2).2)
    · rw [if_neg hqp]
      exact h.stack_nodup q (by simpa using hq)

/-- WF is preserved by the match branch of processStack, which pushes the
matched pair back onto the stack in swapped order. -/
theorem WF_matchReorder {s : BoardState} (h : WF s) (p : String)
    (first second : Pos) (rest : List Pos) (hp : p ∈ s.players)
    (hstk : getAssoc s.turnStack p = some (first :: second :: rest)) :
    WF (setStack (setStack s p rest) p (second :: first :: rest)) := by
  have hSOf : stackOf s p = first :: second :: rest := by
    unfold stackOf; rw [hstk]; rfl
  have hnodup : (first :: second :: rest).Nodup := hSOf ▸ h.stack_nodup p hp
  have hmem : ∀ pos, pos ∈ (second :: first :: rest) ↔ pos ∈ stackOf s p := by
    intro pos
    rw [hSOf]
    simp only [List.mem_cons]
    tauto
  have hstk3 : ∀ q, stackOf (setStack (setStack s p rest) p
      (second :: first :: rest)) q =
      if q = p then second :: first :: rest else stackOf s q := by
    intro q
    unfold stackOf
    rw [setStack_turnStack, setStack_turnStack]
    by_cases hq : q = p
    · subst hq; rw [getAssoc_setAssoc_self, if_pos rfl]; rfl
    · rw [getAssoc_setAssoc_ne _ _ _ _ hq,
        getAssoc_setAssoc_ne _ _ _ _ hq, if_neg hq]
  constructor
  · intro q hq
    rw [setStack_turnStack, setStack_turnStack]
    by_cases hqp : q = p
    · subst hqp; rw [getAssoc_setAssoc_self]; rfl
    · rw [getAssoc_setAssoc_ne _ _ _ _ hqp, getAssoc_setAssoc_ne _ _ _ _ hqp]
      exact h.stack_some q (by simpa using hq)
  · intro q hq
    rw [setStack_removalQueue, setStack_removalQueue]
    exact h.queue_some q (by simpa using hq)
  · intro q hq pos hpos
    rw [hstk3 q] at hpos
    show pos.col < s.cols
    by_cases hqp : q = p
    · rw [if_pos hqp] at hpos
      exact h.stack_cols p hp pos ((hmem pos).1 hpos)
    · rw [if_neg hqp] at hpos
      exact h.stack_cols q (by simpa using hq) pos hpos
  · intro q hq pos hpos
    rw [hstk3 q] at hpos
    rw [busyAt_setStack, busyAt_setStack]
    by_cases hqp : q = p
    · rw [if_pos hqp] at hpos
      exact h.busy_of_stack p hp pos ((hmem pos).1 hpos)
    · rw [if_neg hqp] at hpos
      exact h.busy_of_stack q (by simpa using hq) pos hpos
  · intro pos hr hc hb
    rw [busyAt_setStack, busyAt_setStack] at hb
    obtain ⟨q, hq, hm⟩ := h.stack_of_busy pos (by simpa using hr)
      (by simpa using hc) hb
    refine ⟨q, by simpa using hq, ?_⟩
    rw [hstk3 q]
    by_cases hqp : q = p
    · rw [if_pos hqp]
      exact (hmem pos).2 (hqp ▸ hm)
    · rw [if_neg hqp]
      exact hm
  · intro p1 p2 pos1' pos2' h1 h2 hmm1 hmm2 hfe
    rw [hstk3 p1] at hmm1
    rw [hstk3 p2] at hmm2
    have hmm1' : pos1' ∈ stackOf s p1 := by
      by_cases h1p : p1 = p
      · rw [if_pos h1p] at hmm1; exact h1p ▸ (hmem pos1').1 hmm1
      · rwa [if_neg h1p] at hmm1
    have hmm2' : pos2' ∈ stackOf s p2 := by
      by_cases h2p : p2 = p
      · rw [if_pos h2p] at hmm2; exact h2p ▸ (hmem pos2').1 hmm2
      · rwa [if_neg h2p] at hmm2
    exact h.unique_flat p1 p2 pos1' pos2' (by simpa using h1) (by simpa using h2)
      hmm1' hmm2' (by simpa [flatOf] using hfe)
  · intro q hq
    rw [hstk3 q]
    by_cases hqp : q = p
    · rw [if_pos hqp]
      rcases List.nodup_cons.1 hnodup with ⟨hf12, hnd2⟩
      rcases List.nodup_cons.1 hnd2 with ⟨hs2, hndr⟩
      refine List.nodup_cons.2 ⟨?_, List.nodup_cons.2 ⟨?_, hndr⟩⟩
      · intro hm
        rcases List.mem_cons.1 hm with he | hm2
        · exact hf12 (List.mem_cons.2 (Or.inl he.symm))
        · exact hs2 hm2
      · intro hm
        exact hf12 (List.mem_cons.2 (Or.inr hm))
    · rw [if_neg hqp]
      exact h.stack_nodup q (by simpa using hq)

/-- WF is preserved by processStack. -/
theorem WF_processStack {s : BoardState} (h : WF s) (p : String)
    (hp : p ∈ s.players) : WF (processStack s p).1 := by
  unfold processStack
  simp only []
  rcases hst1 : getAssoc s.turnStack p with _ | stack
  · exact h
  · simp only []
    by_cases hlen : stack.length < 2
    · rw [if_pos hlen]; exact h
    · rw [if_neg hlen]
      match stack, hst1 with
      | [], hst1 => exact absurd (by simp) hlen
      | [x], hst1 => exact absurd (by simp) hlen
      | first :: second :: rest, hst1 =>
        simp only []
        have hbf : busyAt s first = true := h.busy_of_stack p hp first
          (by unfold stackOf; rw [hst1]; exact List.mem_cons_self _ _)
        have hbs : busyAt s second = true := h.busy_of_stack p hp second
          (by unfold stackOf; rw [hst1]
              exact List.mem_cons_of_mem _ (List.mem_cons_self _ _))
        rcases hc1 : getCards (setStack s p rest) first.row first.col
            with _ | c1
        · exact absurd hbf (by
            unfold busyAt
            rw [show getCards s first.row first.col = none from hc1]
            simp)
        · rcases hc2 : getCards (setStack s p rest) second.row second.col
              with _ | c2
          · exact absurd hbs (by
              unfold busyAt
              rw [show getCards s second.row second.col = none from hc2]
              simp)
          · simp only []
            by_cases hne : (c1.getValue != c2.getValue) = true
            · rw [if_pos hne]
              exact WF_unmatched h p first second rest hp hst1
            · rw [if_neg hne]
              exact WF_matchReorder h p first second rest hp hst1

/-- WF is preserved when a player takes a free card at a model position: the
card turns busy and the position is appended to the player stack. -/
theorem WF_push {s : BoardState} (h : WF s) (p : String) (row col : Nat)
    (st : List Pos) (card : Card) (hp : p ∈ s.players)
    (hrow : row < s.rows) (hcol : col < s.cols)
    (hcd : getCards s row col = some card) (hbusy : card.busy = false)
    (hstk : getAssoc s.turnStack p = some st) :
    WF (setStack (updateCard s row col
      (fun c => { c with faceUp := true, busy := true })) p
      (st ++ [⟨row, col⟩])) := by
  have hSOf : stackOf s p = st := by unfold stackOf; rw [hstk]; rfl
  have hBF : busyAt s ⟨row, col⟩ = false := by
    unfold busyAt
    rw [show getCards s (Pos.mk row col).row (Pos.mk row col).col =
      some card from hcd]
    exact hbusy
  have hnohit : ∀ q ∈ s.players, ∀ pos ∈ stackOf s q,
      flatOf s pos ≠ row * s.cols + col := by
    intro q hq pos hm hf
    have hb := h.busy_of_stack q hq pos hm
    rw [busyAt_eq_flat s pos ⟨row, col⟩ hf, hBF] at hb
    exact Bool.false_ne_true hb
  have hstk3 : ∀ q, stackOf (setStack (updateCard s row col
      (fun c => { c with faceUp := true, busy := true })) p
      (st ++ [⟨row, col⟩])) q =
      if q = p then st ++ [⟨row, col⟩] else stackOf s q := by
    intro q
    by_cases hq : q = p
    · subst hq; rw [stackOf_setStack_self, if_pos rfl]
    · rw [stackOf_setStack_ne _ _ _ _ hq, if_neg hq]
      unfold stackOf
      rw [updateCard_turnStack]
  have hbusy3 : ∀ pos, busyAt (setStack (updateCard s row col
      (fun c => { c with faceUp := true, busy := true })) p
      (st ++ [⟨row, col⟩])) pos =
      if flatOf s pos = row * s.cols + col then true else busyAt s pos := by
    intro pos
    rw [busyAt_setStack, busyAt_updateCard]
    by_cases hf : flatOf s pos = row * s.cols + col
    · rw [if_pos (by exact hf), if_pos hf]
      have : getCards s pos.row pos.col = getCards s row col := by
        unfold getCards
        rw [show pos.row * s.cols + pos.col = row * s.cols + col from hf]
      rw [this, hcd]
      rfl
    · rw [if_neg (by exact hf), if_neg hf]
  constructor
  · intro q hq
    rw [setStack_turnStack, updateCard_turnStack]
    by_cases hqp : q = p
    · subst hqp; rw [getAssoc_setAssoc_self]; rfl
    · rw [getAssoc_setAssoc_ne _ _ _ _ hqp]
      exact h.stack_some q (by simpa using hq)
  · intro q hq
    rw [setStack_removalQueue, updateCard_removalQueue]
    exact h.queue_some q (by simpa using hq)
  · intro q hq pos hpos
    rw [hstk3 q] at hpos
    rw [setStack_cols, updateCard_cols]
    by_cases hqp : q = p
    · rw [if_pos hqp] at hpos
      rcases List.mem_append.1 hpos with hm | hm
      · exact h.stack_cols p hp pos (hSOf ▸ hm)
      · rw [List.mem_singleton.1 hm]
        exact hcol
    · rw [if_neg hqp] at hpos
      exact h.stack_cols q (by simpa using hq) pos hpos
  · intro q hq pos hpos
    rw [hstk3 q] at hpos
    rw [hbusy3 pos]
    by_cases hqp : q = p
    · rw [if_pos hqp] at hpos
      rcases List.mem_append.1 hpos with hm | hm
      · rw [if_neg (hnohit p hp pos (hSOf ▸ hm))]
        exact h.busy_of_stack p hp pos (hSOf ▸ hm)
      · rw [List.mem_singleton.1 hm]
        have hfr : flatOf s (Pos.mk row col) = row * s.cols + col := rfl
        rw [if_pos hfr]
    · rw [if_neg hqp] at hpos
      have hq' : q ∈ s.players := by simpa using hq
      rw [if_neg (hnohit q hq' pos hpos)]
      exact h.busy_of_stack q hq' pos hpos
  · intro pos hr hc hb
    rw [hbusy3 pos] at hb
    by_cases hf : flatOf s pos = row * s.cols + col
    · have hpe : pos = ⟨row, col⟩ := by
        obtain ⟨e1, e2⟩ := flat_inj (by simpa using hc) hcol hf
        cases pos; simp_all
      refine ⟨p, by simpa using hp, ?_⟩
      rw [hstk3 p, if_pos rfl, hpe]
      exact List.mem_append.2 (Or.inr (List.mem_singleton.2 rfl))
    · rw [if_neg hf] at hb
      obtain ⟨q, hq, hm⟩ := h.stack_of_busy pos (by simpa using hr)
        (by simpa using hc) hb
      refine ⟨q, by simpa using hq, ?_⟩
      rw [hstk3 q]
      by_cases hqp : q = p
      · rw [if_pos hqp]
        exact List.mem_append.2 (Or.inl (hSOf ▸ hqp ▸ hm))
      · rw [if_neg hqp]
        exact hm
  · intro p1 p2 pos1 pos2 h1 h2 hm1 hm2 hfe
    rw [hstk3 p1] at hm1
    rw [hstk3 p2] at hm2
    have hfe' : flatOf s pos1 = flatOf s pos2 := by simpa [flatOf] using hfe
    have split1 : (p1 = p ∧ pos1 = Pos.mk row col) ∨ pos1 ∈ stackOf s p1 := by
      by_cases h1p : p1 = p
      · rw [if_pos h1p] at hm1
        rcases List.mem_append.1 hm1 with hm | hm
        · exact Or.inr (h1p ▸ hSOf ▸ hm)
        · exact Or.inl ⟨h1p, List.mem_singleton.1 hm⟩
      · rw [if_neg h1p] at hm1
        exact Or.inr hm1
    have split2 : (p2 = p ∧ pos2 = Pos.mk row col) ∨ pos2 ∈ stackOf s p2 := by
      by_cases h2p : p2 = p
      · rw [if_pos h2p] at hm2
        rcases List.mem_append.1 hm2 with hm | hm
        · exact Or.inr (h2p ▸ hSOf ▸ hm)
        · exact Or.inl ⟨h2p, List.mem_singleton.1 hm⟩
      · rw [if_neg h2p] at hm2
        exact Or.inr hm2
    rcases split1 with ⟨he1, hp1⟩ | hs1
    · rcases split2 with ⟨he2, hp2⟩ | hs2
      · rw [he1, he2]
      · exfalso
        apply hnohit p2 (by simpa using h2) pos2 hs2
        rw [← hfe', hp1]
        rfl
    · rcases split2 with ⟨he2, hp2⟩ | hs2
      · exfalso
        apply hnohit p1 (by simpa using h1) pos1 hs1
        rw [hfe', hp2]
        rfl
      · exact h.unique_flat p1 p2 pos1 pos2 (by simpa using h1) (by simpa using h2)
          hs1 hs2 hfe'
  · intro q hq
    rw [hstk3 q]
    by_cases hqp : q = p
    · rw [if_pos hqp]
      have hnew : Pos.mk row col ∉ st := by
        intro hm
        exact hnohit p hp ⟨row, col⟩ (hSOf ▸ hm) rfl
      simp [List.nodup_append, hnew, hSOf ▸ h.stack_nodup p hp]
    · rw [if_neg hqp]
      exact h.stack_nodup q (by simpa using hq)

theorem drainBacklog_rows (s : BoardState) (l : List Pos) :
    (drainBacklog s l).1.rows = s.rows := by
  induction l generalizing s with
  | nil => rfl
  | cons pos rest ih =>
    unfold drainBacklog
    rcases getCards s pos.row pos.col with _ | c
    · exact ih s
    · simp only []
      by_cases hb : (!c.busy) = true
      · rw [if_pos hb]
        show (drainBacklog (updateCard s pos.row pos.col
          (fun c => { c with faceUp := false, busy := false })) rest).1.rows = _
        rw [ih _, updateCard_rows]
      · rw [if_neg hb]
        exact ih s

theorem drainBacklog_cols (s : BoardState) (l : List Pos) :
    (drainBacklog s l).1.cols = s.cols := by
  induction l generalizing s with
  | nil => rfl
  | cons pos rest ih =>
    unfold drainBacklog
    rcases getCards s pos.row pos.col with _ | c
    · exact ih s
    · simp only []
      by_cases hb : (!c.busy) = true
      · rw [if_pos hb]
        show (drainBacklog (updateCard s pos.row pos.col
          (fun c => { c with faceUp := false, busy := false })) rest).1.cols = _
        rw [ih _, updateCard_cols]
      · rw [if_neg hb]
        exact ih s

/-- preprocessWaitForCardAvailable leaves the player list and the board
dimensions unchanged. -/
theorem preprocess_shape (s : BoardState) (p : String) (row col : Nat) :
    (preprocess s p row col).2.1.players = s.players ∧
    (preprocess s p row col).2.1.rows = s.rows ∧
    (preprocess s p row col).2.1.cols = s.cols := by
  unfold preprocess
  simp only []
  rcases getAssoc s.turnStack p with _ | stack
  · exact ⟨rfl, rfl, rfl⟩
  · simp only []
    rcases getCards s row col with _ | c
    · rcases stack with _ | ⟨pos, rest⟩
      · exact ⟨rfl, rfl, rfl⟩
      · simp only []
        refine ⟨?_, ?_, ?_⟩ <;> simp
    · simp only []
      by_cases hlen : (stack.length == 1) = true
      · rw [if_pos hlen]
        by_cases hbm : (stack.any fun pos => pos.row == row && pos.col == col) = true
        · rw [if_pos hbm]; exact ⟨rfl, rfl, rfl⟩
        · rw [if_neg hbm]
          by_cases hcb : (!c.busy) = true
          · rw [if_pos hcb]; exact ⟨rfl, rfl, rfl⟩
          · rw [if_neg hcb]
            rcases stack with _ | ⟨pos, rest⟩
            · exact ⟨rfl, rfl, rfl⟩
            · simp only []
              refine ⟨?_, ?_, ?_⟩ <;> simp
      · rw [if_neg hlen]; exact ⟨rfl, rfl, rfl⟩

/-- processPreviousPair leaves the player list and the board dimensions
unchanged. -/
theorem processPreviousPair_shape (s : BoardState) (p : String) :
    (processPreviousPair s p).1.players = s.players ∧
    (processPreviousPair s p).1.rows = s.rows ∧
    (processPreviousPair s p).1.cols = s.cols := by
  unfold processPreviousPair
  simp only []
  rcases getAssoc s.removalQueue p with _ | qq
  · simp only []
    rcases getAssoc s.turnStack p with _ | stack
    · exact ⟨rfl, rfl, rfl⟩
    · simp only []
      by_cases hlen : stack.length < 2
      · rw [if_pos hlen]; exact ⟨rfl, rfl, rfl⟩
      · rw [if_neg hlen]
        rcases stack with _ | ⟨first, stack2⟩
        · exact ⟨rfl, rfl, rfl⟩
        · rcases stack2 with _ | ⟨second, rest⟩
          · exact ⟨rfl, rfl, rfl⟩
          · simp only []
            rcases getCards (setStack s p rest) first.row first.col with _ | c1
            · refine ⟨?_, ?_, ?_⟩ <;> simp
            · rcases getCards (setStack s p rest) second.row second.col with _ | c2
              · refine ⟨?_, ?_, ?_⟩ <;> simp
              · simp only []
                refine ⟨?_, ?_, ?_⟩ <;> simp
  · simp only []
    have hd1 : (drainBacklog (setQueue s p []) qq).1.players = s.players := by
      rw [drainBacklog_players, setQueue_players]
    have hd2 : (drainBacklog (setQueue s p []) qq).1.rows = s.rows := by
      rw [drainBacklog_rows, setQueue_rows]
    have hd3 : (drainBacklog (setQueue s p []) qq).1.cols = s.cols := by
      rw [drainBacklog_cols, setQueue_cols]
    rcases getAssoc (drainBacklog (setQueue s p []) qq).1.turnStack p
        with _ | stack
    · exact ⟨hd1, hd2, hd3⟩
    · simp only []
      by_cases hlen : stack.length < 2
      · rw [if_pos hlen]; exact ⟨hd1, hd2, hd3⟩
      · rw [if_neg hlen]
        rcases stack with _ | ⟨first, stack2⟩
        · exact ⟨hd1, hd2, hd3⟩
        · rcases stack2 with _ | ⟨second, rest⟩
          · exact ⟨hd1, hd2, hd3⟩
          · simp only []
            rcases getCards (setStack (drainBacklog (setQueue s p []) qq).1
                p rest) first.row first.col with _ | c1
            · refine ⟨?_, ?_, ?_⟩ <;> simp [hd1, hd2, hd3]
            · rcases getCards (setStack (drainBacklog (setQueue s p []) qq).1
                  p rest) second.row second.col with _ | c2
              · refine ⟨?_, ?_, ?_⟩ <;> simp [hd1, hd2, hd3]
              · simp only []
                refine ⟨?_, ?_, ?_⟩ <;> simp [hd1, hd2, hd3]

/-- WF is preserved by the tail of flip that takes the target card: mark it
face up and busy, push it onto the stack, purge it from the removal queues,
then run processStack. -/
theorem WF_take {s2 : BoardState} (h2 : WF s2) (p : String) (row col : Nat)
    (st : List Pos) (c : Card) (hp : p ∈ s2.players)
    (hrow : row < s2.rows) (hcol : col < s2.cols)
    (hc : getCards s2 row col = some c) (hbusy : c.busy = false)
    (hst : getAssoc s2.turnStack p = some st) :
    WF (processStack (processRemovalQueue (setStack (updateCard s2 row col
      (fun d => { d with faceUp := true, busy := true })) p
      (st ++ [⟨row, col⟩])) row col) p).1 := by
  have hW3 := WF_push h2 p row col st c hp hrow hcol hc hbusy hst
  have hW4 := WF_processRemovalQueue hW3 row col
  exact WF_processStack hW4 p (by simpa using hp)

/-- WF is preserved by the tail of flip from the second availability check
onward, for any prior notification list. -/
theorem WF_flipTail2 {s2 : BoardState} (h2 : WF s2) (p : String)
    (row col : Nat) (hp : p ∈ s2.players) (hrow : row < s2.rows)
    (hcol : col < s2.cols) (evs : List BoardEv) :
    WF ((if !cardFreeOrGone s2 row col then (FlipOutcome.suspended, s2, evs)
      else
        match getCards s2 row col with
        | none => (FlipOutcome.err "Card not found", s2, evs)
        | some c =>
          if c.busy then (FlipOutcome.suspended, s2, evs)
          else
            let s3 := updateCard s2 row col
              (fun c => { c with faceUp := true, busy := true })
            let s4 :=
              match getAssoc s3.turnStack p with
              | some st => setStack s3 p (st ++ [⟨row, col⟩])
              | none => s3
            let s5 := processRemovalQueue s4 row col
            let ps := processStack s5 p
            (FlipOutcome.ok, ps.1, evs ++ ps.2 ++ [BoardEv.broadcast])).2.1) := by
  by_cases hfree : (!cardFreeOrGone s2 row col) = true
  · rw [if_pos hfree]; exact h2
  · rw [if_neg hfree]
    rcases hc : getCards s2 row col with _ | c
    · exact h2
    · simp only []
      by_cases hb : c.busy = true
      · rw [if_pos hb]; exact h2
      · rw [if_neg hb]
        simp only []
        have hsome := h2.stack_some p hp
        rcases hst : getAssoc (updateCard s2 row col
            (fun c => { c with faceUp := true, busy := true })).turnStack p
            with _ | st
        · rw [updateCard_turnStack] at hst
          rw [hst] at hsome
          exact absurd hsome (by simp)
        · exact WF_take h2 p row col st c hp hrow hcol hc
            (by simpa using hb) (by rwa [updateCard_turnStack] at hst)

/-- WF is preserved by flip from the preprocess dispatch onward: o is the
error produced by preprocess (if any), s1 and evs1 the state and
notifications at that point. -/
theorem WF_flipMid (o : Option String) (s1 : BoardState)
    (evs1 : List BoardEv) (h1 : WF s1) (p : String) (row col : Nat)
    (hp : p ∈ s1.players) (hrow : row < s1.rows) (hcol : col < s1.cols) :
    WF ((match o with
      | some e => (FlipOutcome.err e, s1, evs1)
      | none =>
        if !cardFreeOrGone s1 row col then (FlipOutcome.suspended, s1, evs1)
        else
          let needCleanup :=
            decide (2 ≤ (stackOf s1 p).length) ||
            ((getAssoc s1.removalQueue p).map List.length |>.getD 0) ≥ 1
          let pp :=
            if needCleanup then processPreviousPair s1 p else (s1, [])
          let s2 := pp.1
          let evs2 := pp.2
          if !cardFreeOrGone s2 row col then
            (FlipOutcome.suspended, s2, evs1 ++ evs2)
          else
            match getCards s2 row col with
            | none => (FlipOutcome.err "Card not found", s2, evs1 ++ evs2)
            | some c =>
              if c.busy then (FlipOutcome.suspended, s2, evs1 ++ evs2)
              else
                let s3 := updateCard s2 row col
                  (fun c => { c with faceUp := true, busy := true })
                let s4 :=
                  match getAssoc s3.turnStack p with
                  | some st => setStack s3 p (st ++ [Pos.mk row col])
                  | none => s3
                let s5 := processRemovalQueue s4 row col
                let ps := processStack s5 p
                (FlipOutcome.ok, ps.1,
                  evs1 ++ evs2 ++ ps.2 ++ [BoardEv.broadcast])).2.1) := by
  rcases o with _ | e
  · simp only []
    by_cases hfree : (!cardFreeOrGone s1 row col) = true
    · rw [if_pos hfree]; exact h1
    · rw [if_neg hfree]
      have hW2 : WF (if (decide (2 ≤ (stackOf s1 p).length) ||
          decide (((getAssoc s1.removalQueue p).map List.length).getD 0 ≥ 1))
            = true
          then processPreviousPair s1 p else (s1, [])).1 := by
        split_ifs with hnc
        · exact WF_processPreviousPair h1 p hp
        · exact h1
      have hp2 : p ∈ (if (decide (2 ≤ (stackOf s1 p).length) ||
          decide (((getAssoc s1.removalQueue p).map List.length).getD 0 ≥ 1))
            = true
          then processPreviousPair s1 p else (s1, [])).1.players := by
        split_ifs with hnc
        · rw [(processPreviousPair_shape s1 p).1]; exact hp
        · exact hp
      have hrow2 : row < (if (decide (2 ≤ (stackOf s1 p).length) ||
          decide (((getAssoc s1.removalQueue p).map List.length).getD 0 ≥ 1))
            = true
          then processPreviousPair s1 p else (s1, [])).1.rows := by
        split_ifs with hnc
        · rw [(processPreviousPair_shape s1 p).2.1]; exact hrow
        · exact hrow
      have hcol2 : col < (if (decide (2 ≤ (stackOf s1 p).length) ||
          decide (((getAssoc s1.removalQueue p).map List.length).getD 0 ≥ 1))
            = true
          then processPreviousPair s1 p else (s1, [])).1.cols := by
        split_ifs with hnc
        · rw [(processPreviousPair_shape s1 p).2.2]; exact hcol
        · exact hcol
      exact WF_flipTail2 hW2 p row col hp2 hrow2 hcol2 _
  · exact h1

/-- WF is preserved by flip, whatever the outcome (return, error or
suspension). -/
theorem WF_flip {s : BoardState} (h : WF s) (p : String) (row col : Nat)
    (hrow : row < s.rows) (hcol : col < s.cols) :
    WF (flip s p row col).2.1 := by
  by_cases hp : p ∈ s.players
  · unfold flip
    rw [if_pos hp]
    have hW1 : WF (if ((getAssoc s.turnStack p).map List.length == some 1)
          = true
        then preprocess s p row col else (none, s, [])).2.1 := by
      split_ifs with hsec
      · exact WF_preprocess h p row col hp
      · exact h
    have hp1 : p ∈ (if ((getAssoc s.turnStack p).map List.length == some 1)
          = true
        then preprocess s p row col else (none, s, [])).2.1.players := by
      split_ifs with hsec
      · rw [(preprocess_shape s p row col).1]; exact hp
      · exact hp
    have hrow1 : row < (if ((getAssoc s.turnStack p).map List.length == some 1)
          = true
        then preprocess s p row col else (none, s, [])).2.1.rows := by
      split_ifs with hsec
      · rw [(preprocess_shape s p row col).2.1]; exact hrow
      · exact hrow
    have hcol1 : col < (if ((getAssoc s.turnStack p).map List.length == some 1)
          = true
        then preprocess s p row col else (none, s, [])).2.1.cols := by
      split_ifs with hsec
      · rw [(preprocess_shape s p row col).2.2]; exact hcol
      · exact hcol
    exact WF_flipMid _ _ _ hW1 p row col hp1 hrow1 hcol1
  · unfold flip
    rw [if_neg hp]
    exact h

/-- setValue rewrites only the value field, so busy flags are untouched. -/
theorem busyAt_setValueAt (a : BoardState) (r c : Nat) (v : String)
    (pos : Pos) : busyAt (setValueAt a r c v) pos = busyAt a pos := by
  unfold setValueAt
  rw [busyAt_updateCard]
  by_cases hf : flatOf a pos = r * a.cols + c
  · rw [if_pos hf]
    unfold busyAt
    rcases getCards a pos.row pos.col with _ | d <;> rfl
  · rw [if_neg hf]

/-- One transform promise of map rewrites card values only: every other
component of the state, and every busy flag, is unchanged. -/
theorem transformGroup_shape (s0 : BoardState) (f : String → String)
    (v : String) (a : BoardState) :
    (transformGroup s0 f v a).players = a.players ∧
    (transformGroup s0 f v a).rows = a.rows ∧
    (transformGroup s0 f v a).cols = a.cols ∧
    (transformGroup s0 f v a).turnStack = a.turnStack ∧
    (transformGroup s0 f v a).removalQueue = a.removalQueue ∧
    ∀ pos, busyAt (transformGroup s0 f v a) pos = busyAt a pos := by
  unfold transformGroup
  generalize cellsWithValue s0 v = l
  induction l generalizing a with
  | nil => exact ⟨rfl, rfl, rfl, rfl, rfl, fun _ => rfl⟩
  | cons rc rest ih =>
    simp only [List.foldl_cons]
    rcases ih (setValueAt a rc.1 rc.2 (f v)) with ⟨h1, h2, h3, h4, h5, h6⟩
    refine ⟨?_, ?_, ?_, ?_, ?_, ?_⟩
    · rw [h1]; exact updateCard_players a rc.1 rc.2 _
    · rw [h2]; exact updateCard_rows a rc.1 rc.2 _
    · rw [h3]; exact updateCard_cols a rc.1 rc.2 _
    · rw [h4]; exact updateCard_turnStack a rc.1 rc.2 _
    · rw [h5]; exact updateCard_removalQueue a rc.1 rc.2 _
    · intro pos; rw [h6 pos, busyAt_setValueAt]

/-- WF is preserved by the state transformation of a successful map call. -/
theorem WF_mapApply {s : BoardState} (h : WF s) (f : String → String) :
    WF (mapApply s f) := by
  unfold mapApply
  have hfold : ∀ (l : List String) (a : BoardState),
      (l.foldl (fun acc v => transformGroup s f v acc) a).players = a.players ∧
      (l.foldl (fun acc v => transformGroup s f v acc) a).rows = a.rows ∧
      (l.foldl (fun acc v => transformGroup s f v acc) a).cols = a.cols ∧
      (l.foldl (fun acc v => transformGroup s f v acc) a).turnStack
        = a.turnStack ∧
      (l.foldl (fun acc v => transformGroup s f v acc) a).removalQueue
        = a.removalQueue ∧
      ∀ pos, busyAt (l.foldl (fun acc v => transformGroup s f v acc) a) pos
        = busyAt a pos := by
    intro l
    induction l with
    | nil => exact fun a => ⟨rfl, rfl, rfl, rfl, rfl, fun _ => rfl⟩
    | cons v rest ih =>
      intro a
      simp only [List.foldl_cons]
      rcases ih (transformGroup s f v a) with ⟨h1, h2, h3, h4, h5, h6⟩
      rcases transformGroup_shape s f v a with ⟨g1, g2, g3, g4, g5, g6⟩
      refine ⟨h1.trans g1, h2.trans g2, h3.trans g3, h4.trans g4,
        h5.trans g5, fun pos => (h6 pos).trans (g6 pos)⟩
  rcases hfold (distinctValues s) s with ⟨h1, h2, h3, h4, h5, h6⟩
  refine WF_transfer h h1 h2 h3 h4 ?_ h6
  intro q hq
  rw [h5]
  exact h.queue_some q (h1 ▸ hq)

/-- WF is preserved by look (which at most auto-creates the player). -/
theorem WF_look {s : BoardState} (h : WF s) (p : String) :
    WF (look s p).2 := by
  unfold look
  simp only []
  split_ifs with hp
  · exact h
  · exact WF_addPlayer h p hp

/-- WF is preserved by the entry of watch (which at most auto-creates the
player before snapshotting). -/
theorem WF_watchRegister {s : BoardState} (h : WF s) (p : String) :
    WF (watchRegister s p).1 := by
  unfold watchRegister
  simp only []
  split_ifs with hp
  · exact h
  · exact WF_addPlayer h p hp

/-- The demonstration board satisfies the inductive invariant: no card is
busy and both registered players have empty stacks and queues. -/
theorem WF_demo0 : WF demo0 := by
  constructor
  · decide
  · decide
  · decide
  · decide
  · rintro ⟨r, c⟩ hr hc hb
    exfalso
    have hr0 : r = 0 := Nat.lt_one_iff.1 hr
    subst hr0
    have hc4 : c < 4 := hc
    interval_cases c <;> exact absurd hb (by decide)
  · intro p1 p2 pos1 pos2 h1 h2 hm1 hm2 hfe
    exfalso
    fin_cases h1
    · rw [show stackOf demo0 "alice" = [] from rfl] at hm1
      exact absurd hm1 (List.not_mem_nil _)
    · rw [show stackOf demo0 "bob" = [] from rfl] at hm1
      exact absurd hm1 (List.not_mem_nil _)
  · decide

/-! ### The claims -/

/-- C2: at every point where a board operation (flip, look, map, watch)
returns or suspends, a card's busy flag is true iff that card's position
appears in exactly one player's turn stack, and no position appears in two
players' stacks.  From a state satisfying the inductive invariant WF, the
state delivered by each operation — flip at a model cell with any outcome
(return, error or suspension), look, map (the unchanged state on its error
path and the transformed state on its success path) and the registration
point of watch — satisfies BusyStackInv, the spec's busy-iff-one-stack
property. -/
theorem boardOps_preserve_busyIffOneStack {s : BoardState} (h : WF s)
    (p : String) (f : String → String) (row col : Nat)
    (hrow : row < s.rows) (hcol : col < s.cols) :
    BusyStackInv (flip s p row col).2.1 ∧
    BusyStackInv (look s p).2 ∧
    (∀ r, (mapOp s p f).1 = Except.ok r → BusyStackInv r.1) ∧
    BusyStackInv s ∧
    BusyStackInv (watchRegister s p).1 := by
  refine ⟨(WF_flip h p row col hrow hcol).toBusyStackInv,
    (WF_look h p).toBusyStackInv, ?_, h.toBusyStackInv,
    (WF_watchRegister h p).toBusyStackInv⟩
  intro r hr
  unfold mapOp at hr
  by_cases hp : p ∈ s.players
  · rw [if_pos hp] at hr
    simp only [] at hr
    cases hr
    exact (WF_mapApply h f).toBusyStackInv
  · rw [if_neg hp] at hr
    simp at hr

/-- Closed witness for C2 at the demonstration board. -/
theorem boardOps_preserve_busyIffOneStack_witness :
    0 < demo0.rows ∧ 0 < demo0.cols ∧
    (BusyStackInv (flip demo0 "alice" 0 0).2.1 ∧
     BusyStackInv (look demo0 "alice").2 ∧
     (∀ r, (mapOp demo0 "alice" (fun v => v)).1 = Except.ok r →
       BusyStackInv r.1) ∧
     BusyStackInv demo0 ∧
     BusyStackInv (watchRegister demo0 "alice").1) :=
  ⟨by decide, by decide,
    boardOps_preserve_busyIffOneStack WF_demo0 "alice" (fun v => v) 0 0
      (by decide) (by decide)⟩

/-- C8: for a player holding exactly one cell, a flip targeting an empty cell
fails with the card-not-found error, and despite the failure the first held
cell is released: its busy flag is cleared and its position moves into the
player removal backlog, so the board is not left with the first card still
controlled. -/
theorem flip_secondEmpty_releases_first (s : BoardState) (p : String) (r c : Nat)
    (pos1 : Pos) (card1 : Card) (q0 : List Pos)
    (hp : p ∈ s.players)
    (hst : getAssoc s.turnStack p = some [pos1])
    (hq : getAssoc s.removalQueue p = some q0)
    (hc1 : getCards s pos1.row pos1.col = some card1)
    (hempty : getCards s r c = none) :
    (flip s p r c).1 = .err "Card not found" ∧
    getAssoc (flip s p r c).2.1.turnStack p = some [] ∧
    getAssoc (flip s p r c).2.1.removalQueue p = some (q0 ++ [pos1]) ∧
    getCards (flip s p r c).2.1 pos1.row pos1.col = some { card1 with busy := false } ∧
    (flip s p r c).2.2 = [.wakeCell pos1, .broadcast] := by
  simp [flip, preprocess, hp, hst, hq, hc1, hempty, getAssoc_setAssoc_self,
    getCards_updateCard, getCards_pushRemoval, getAssoc_pushRemoval_self]

theorem flip_secondEmpty_releases_first_witness :
    ("alice" ∈ demoHoldGap.players ∧
     getAssoc demoHoldGap.turnStack "alice" = some [⟨0, 0⟩] ∧
     getAssoc demoHoldGap.removalQueue "alice" = some [] ∧
     getCards demoHoldGap 0 0 = some ⟨"A", true, true⟩ ∧
     getCards demoHoldGap 0 2 = none) ∧
    ((flip demoHoldGap "alice" 0 2).1 = .err "Card not found" ∧
     getAssoc (flip demoHoldGap "alice" 0 2).2.1.turnStack "alice" = some [] ∧
     getAssoc (flip demoHoldGap "alice" 0 2).2.1.removalQueue "alice" =
       some ([] ++ [⟨0, 0⟩]) ∧
     getCards (flip demoHoldGap "alice" 0 2).2.1 0 0 =
       some { Card.mk "A" true true with busy := false } ∧
     (flip demoHoldGap "alice" 0 2).2.2 = [.wakeCell ⟨0, 0⟩, .broadcast]) :=
  ⟨⟨by decide, by decide, by decide, by decide, by decide⟩,
   flip_secondEmpty_releases_first demoHoldGap "alice" 0 2 ⟨0, 0⟩ ⟨"A", true, true⟩ []
     (by decide) (by decide) (by decide) (by decide) (by decide)⟩

/-- C7 counterexample: flip does NOT auto-create an unknown player: on a
board where "alice" has no record, flip fails with the player-not-found
error — not a board-state reason — and leaves the player list unchanged,
refuting the claim that every operation except map auto-creates. -/
theorem flip_unknown_player_not_autocreated :
    (flip demoNoPlayers "alice" 0 0).1 = .err "Player not found" ∧
    (flip demoNoPlayers "alice" 0 0).2.1 = demoNoPlayers ∧
    ("alice" ∈ (flip demoNoPlayers "alice" 0 0).2.1.players → False) := by
  refine ⟨by decide, by decide, ?_⟩
  intro h
  revert h
  decide

/-- C7 as amended: look and watch auto-create an unknown player
(idempotently: a known player leaves the state unchanged), while flip and
map do not auto-create and fail with a player-not-found error. -/
theorem autoCreate_lookWatch_not_flipMap (s : BoardState) (p : String)
    (f : String → String) (r c : Nat) :
    (p ∉ s.players →
      (flip s p r c).1 = .err "Player not found" ∧ (flip s p r c).2.1 = s ∧
      (mapOp s p f).1 = .error "Player not found" ∧
      (look s p).2 = addPlayer s p ∧
      (watchRegister s p).1 = addPlayer s p ∧
      getAssoc (look s p).2.turnStack p = some [] ∧
      getAssoc (look s p).2.removalQueue p = some [] ∧
      p ∈ (look s p).2.players) ∧
    (p ∈ s.players → (look s p).2 = s ∧ (watchRegister s p).1 = s) := by
  constructor
  · intro hp
    refine ⟨?_, ?_, ?_, ?_, ?_, ?_, ?_, ?_⟩
    · simp [flip, hp]
    · simp [flip, hp]
    · simp [mapOp, hp]
    · simp [look, hp]
    · simp [watchRegister, hp]
    · simp [look, hp, addPlayer, getAssoc_setAssoc_self]
    · simp [look, hp, addPlayer, getAssoc_setAssoc_self]
    · simp [look, hp, addPlayer]
  · intro hp
    exact ⟨by simp [look, hp], by simp [watchRegister, hp]⟩

theorem autoCreate_lookWatch_not_flipMap_witness :
    (("alice" ∉ demoNoPlayers.players) ∧
      ((flip demoNoPlayers "alice" 0 0).1 = .err "Player not found" ∧
       (flip demoNoPlayers "alice" 0 0).2.1 = demoNoPlayers ∧
       (mapOp demoNoPlayers "alice" id).1 = .error "Player not found" ∧
       (look demoNoPlayers "alice").2 = addPlayer demoNoPlayers "alice" ∧
       (watchRegister demoNoPlayers "alice").1 = addPlayer demoNoPlayers "alice" ∧
       getAssoc (look demoNoPlayers "alice").2.turnStack "alice" = some [] ∧
       getAssoc (look demoNoPlayers "alice").2.removalQueue "alice" = some [] ∧
       "alice" ∈ (look demoNoPlayers "alice").2.players)) ∧
    ("alice" ∈ demo0.players ∧
      ((look demo0 "alice").2 = demo0 ∧ (watchRegister demo0 "alice").1 = demo0)) :=
  ⟨⟨by decide,
    (autoCreate_lookWatch_not_flipMap demoNoPlayers "alice" id 0 0).1 (by decide)⟩,
   ⟨by decide,
    (autoCreate_lookWatch_not_flipMap demo0 "alice" id 0 0).2 (by decide)⟩⟩

/-- C10: getCards performs unchecked flat indexing cards[row*cols+col]: an
in-array flat index returns the stored entry even when col ≥ cols (aliasing
into the cell at (flat / cols, flat % cols), a different coordinate pair),
an out-of-array flat index returns undefined rather than throwing, a
first-card flip at an out-of-array position therefore fails with the
card-not-found error, and a first-card flip at an aliased in-array position
takes the card at the aliased coordinates instead of the requested ones. -/
theorem getCards_flat_indexing (s : BoardState) (p : String) (r c : Nat) (card : Card) :
    (∀ h : r * s.cols + c < s.cards.length,
      getCards s r c = s.cards.get ⟨r * s.cols + c, h⟩) ∧
    (s.cards.length ≤ r * s.cols + c → getCards s r c = none) ∧
    (0 < s.cols →
      getCards s r c = getCards s ((r * s.cols + c) / s.cols) ((r * s.cols + c) % s.cols)) ∧
    (0 < s.cols → s.cols ≤ c →
      ((r * s.cols + c) / s.cols, (r * s.cols + c) % s.cols) ≠ (r, c)) ∧
    (p ∈ s.players → getAssoc s.turnStack p = some [] →
      getAssoc s.removalQueue p = some [] → s.cards.length ≤ r * s.cols + c →
      flip s p r c = (.err "Card not found", s, [])) ∧
    (p ∈ s.players → getAssoc s.turnStack p = some [] →
      getAssoc s.removalQueue p = some [] → getCards s r c = some card →
      card.busy = false → 0 < s.cols →
      getCards (flip s p r c).2.1 ((r * s.cols + c) / s.cols) ((r * s.cols + c) % s.cols) =
        some { card with faceUp := true, busy := true }) := by
  have hdm : ((r * s.cols + c) / s.cols) * s.cols + (r * s.cols + c) % s.cols =
      r * s.cols + c := by
    rw [Nat.mul_comm]
    exact Nat.div_add_mod (r * s.cols + c) s.cols
  refine ⟨?_, ?_, ?_, ?_, ?_, ?_⟩
  · intro h
    unfold getCards
    rw [List.get?_eq_get h]
    rfl
  · intro h
    unfold getCards
    rw [List.get?_eq_none.mpr h]
    rfl
  · intro _
    unfold getCards
    rw [hdm]
  · intro hcols hc
    have : (r * s.cols + c) % s.cols < s.cols := Nat.mod_lt _ hcols
    intro hpair
    have : (r * s.cols + c) % s.cols = c := congrArg Prod.snd hpair
    omega
  · intro hp hst hq hlen
    exact flip_first_missing s p r c hp hst hq
      (by show (s.cards.get? (r * s.cols + c)).join = none
          rw [List.get?_eq_none.mpr hlen]
          rfl)
  · intro hp hst hq hcard hbusy hcols
    rw [flip_first_take s p r c card hp hst hq hcard hbusy]
    simp only [getCards_processRemovalQueue, getCards_setStack]
    rw [getCards_updateCard]
    rw [if_pos hdm]
    unfold getCards
    rw [hdm]
    rw [show (s.cards.get? (r * s.cols + c)).join = some card from hcard]
    rfl

theorem getCards_flat_indexing_witness :
    (getCards demo0 0 5 = none ∧
     flip demo0 "alice" 0 5 = (.err "Card not found", demo0, []) ∧
     (0 * demo0.cols + 6) / demo0.cols = 1 ∧ (0 * demo0.cols + 6) % demo0.cols = 2) ∧
    (getCards demoNoPlayers 0 0 =
       demoNoPlayers.cards.get ⟨0 * demoNoPlayers.cols + 0, by decide⟩) :=
  ⟨⟨by decide,
    (getCards_flat_indexing demo0 "alice" 0 5 ⟨"A", false, false⟩).2.2.2.2.1
      (by decide) (by decide) (by decide) (by decide),
    by decide, by decide⟩,
   (getCards_flat_indexing demoNoPlayers "p" 0 0 ⟨"A", false, false⟩).1 (by decide)⟩

/-- C1: the failing input is a mid-turn second flip targeting the player own
held (busy) cell: the isBusyByMe early return of
preprocessWaitForCardAvailable skips the card-unavailable error, and flip
then suspends inside waitForCardAvailable on the player own card — no error,
no release of the first held cell, no notifications — diverging from the
claimed fail-immediately-and-release behaviour.  A second flip targeting a
cell held by ANOTHER player does behave as claimed: it fails immediately
with the card-unavailable error and releases the first held cell (busy flag
cleared, position moved to the backlog, cell waiters woken, change
broadcast). -/
theorem flip_secondBusy_selfHeld_suspends :
    flip demoHold "alice" 0 0 = (.suspended, demoHold, []) ∧
    ((flip demoTwoHold "alice" 0 1).1 = .err "The card is not available" ∧
     getAssoc (flip demoTwoHold "alice" 0 1).2.1.turnStack "alice" = some [] ∧
     getAssoc (flip demoTwoHold "alice" 0 1).2.1.removalQueue "alice" = some [⟨0, 0⟩] ∧
     getCards (flip demoTwoHold "alice" 0 1).2.1 0 0 = some ⟨"A", true, false⟩ ∧
     getCards (flip demoTwoHold "alice" 0 1).2.1 0 1 = some ⟨"B", true, true⟩ ∧
     (flip demoTwoHold "alice" 0 1).2.2 = [.wakeCell ⟨0, 0⟩, .broadcast]) := by
  refine ⟨by decide, by decide, by decide, by decide, by decide, by decide, by decide⟩

/-- C5: construction is rejected for a non-positive dimension, for a
card-count mismatch, and for a dimension token without an x separator (the
latter before the constructor runs, leaving the singleton slot empty); a
second construction while an instance exists is rejected with the
duplicate-board error.  BUT the source assigns Board.instance = this before
checkRep() runs, so a construction rejected by checkRep leaves the invalid
board in the slot: getInstance then succeeds on the invalid board and a
later valid construction fails with the duplicate-board error, contrary to
the claim that no instance exists after such a failure. -/
theorem boardNew_rejects_but_leaks_instance :
    (boardNew none 0 1 [⟨"A", false, false⟩]).1 = .error "assertion failed" ∧
    (boardNew none 2 2 [⟨"A", false, false⟩]).1 = .error "assertion failed" ∧
    (parseBoardLines none ["5y5", "A"]).1 = .error "invalid size" ∧
    (parseBoardLines none ["5y5", "A"]).2 = none ∧
    (boardNew (some (demoNoPlayers)) 1 1 [⟨"B", false, false⟩]).1 =
      .error "Board already exists" ∧
    (boardNew none 0 1 [⟨"A", false, false⟩]).2 =
      some { rows := 0, cols := 1, cards := [some ⟨"A", false, false⟩],
             players := [], turnStack := [], removalQueue := [] } ∧
    getInstance (boardNew none 0 1 [⟨"A", false, false⟩]).2 =
      .ok { rows := 0, cols := 1, cards := [some ⟨"A", false, false⟩],
            players := [], turnStack := [], removalQueue := [] } ∧
    (boardNew (boardNew none 0 1 [⟨"A", false, false⟩]).2 1 1 [⟨"B", false, false⟩]).1 =
      .error "Board already exists" := by
  exact ⟨rfl, rfl, rfl, rfl, rfl, rfl, rfl, rfl⟩

/-- C4: a player who flips two cells with equal values in one turn keeps both
face up, busy and rendered `my <value>` by look (and the cards are not
removed immediately); on that player's next first-card flip both cells are
removed from the board and render `none`. -/
theorem flip_match_pair_lifecycle (s : BoardState) (p : String)
    (pos1 : Pos) (r2 c2 r3 c3 : Nat) (card1 card2 card3 : Card)
    (hp : p ∈ s.players)
    (hst : getAssoc s.turnStack p = some [pos1])
    (hq : getAssoc s.removalQueue p = some [])
    (hc1 : getCards s pos1.row pos1.col = some card1)
    (hb1 : card1.busy = true) (hf1 : card1.faceUp = true)
    (hc2 : getCards s r2 c2 = some card2) (hb2 : card2.busy = false)
    (hval : card1.value = card2.value)
    (hne12 : pos1 ≠ Pos.mk r2 c2)
    (hflat12 : pos1.row * s.cols + pos1.col ≠ r2 * s.cols + c2)
    (hc3 : getCards s r3 c3 = some card3) (hb3 : card3.busy = false)
    (hflat31 : r3 * s.cols + c3 ≠ pos1.row * s.cols + pos1.col)
    (hflat32 : r3 * s.cols + c3 ≠ r2 * s.cols + c2) :
    (flip s p r2 c2).1 = .ok ∧
    renderCell (flip s p r2 c2).2.1 p pos1.row pos1.col = "my " ++ card1.value ∧
    renderCell (flip s p r2 c2).2.1 p r2 c2 = "my " ++ card2.value ∧
    getCards (flip s p r2 c2).2.1 pos1.row pos1.col = some card1 ∧
    getCards (flip s p r2 c2).2.1 r2 c2 =
      some { card2 with faceUp := true, busy := true } ∧
    (flip (flip s p r2 c2).2.1 p r3 c3).1 = .ok ∧
    getCards (flip (flip s p r2 c2).2.1 p r3 c3).2.1 pos1.row pos1.col = none ∧
    getCards (flip (flip s p r2 c2).2.1 p r3 c3).2.1 r2 c2 = none ∧
    renderCell (flip (flip s p r2 c2).2.1 p r3 c3).2.1 p pos1.row pos1.col = "none" ∧
    renderCell (flip (flip s p r2 c2).2.1 p r3 c3).2.1 p r2 c2 = "none" := by
  obtain ⟨hok1, hst1, hq1, hc1', hc2', hev1, hcols1, hplayers1⟩ :=
    flip_second_match s p r2 c2 pos1 card1 card2
      hp hst hq hc1 hb1 hf1 hc2 hb2 hne12 hflat12 hval
  obtain ⟨hfrS, hfrC⟩ :=
    flip_second_match_frame s p r2 c2 pos1 card1 card2
      hp hst hq hc1 hb1 hf1 hc2 hb2 hne12 hflat12 hval
  have hc3' : getCards (flip s p r2 c2).2.1 r3 c3 = some card3 := by
    rw [hfrC r3 c3 hflat32]; exact hc3
  have hp1 : p ∈ (flip s p r2 c2).2.1.players := by rw [hplayers1]; exact hp
  obtain ⟨hok2, hn1, hn2, hc3'', hst2, hq2, hev2, hcols2, hplayers2⟩ :=
    flip_newTurn_matched (flip s p r2 c2).2.1 p r3 c3 pos1 (Pos.mk r2 c2)
      card1 { card2 with faceUp := true, busy := true } card3
      hp1 hst1 hq1 hc1' (by simpa using hc2') hc3' hb3
      (by rw [hcols1]; exact hflat31) (by rw [hcols1]; simpa using hflat32)
  have hpos1ne : Pos.mk r2 c2 ≠ Pos.mk pos1.row pos1.col := by
    intro h
    exact hne12 (by cases pos1; exact (congrArg id h).symm)
  refine ⟨hok1, ?_, ?_, hc1', hc2', hok2, hn1, by simpa using hn2, ?_, ?_⟩
  · simp [renderCell, hc1', hf1, stackOf, hst1, posHit_eq, hpos1ne]
  · simp [renderCell, hc2', stackOf, hst1, posHit_eq]
  · simp [renderCell, hn1]
  · have : getCards (flip (flip s p r2 c2).2.1 p r3 c3).2.1 r2 c2 = none := by
      simpa using hn2
    simp [renderCell, this]

theorem flip_match_pair_lifecycle_witness :
    (flip demoHold "alice" 0 2).1 = .ok ∧
    renderCell (flip demoHold "alice" 0 2).2.1 "alice" 0 0 = "my " ++ "A" ∧
    renderCell (flip demoHold "alice" 0 2).2.1 "alice" 0 2 = "my " ++ "A" ∧
    getCards (flip demoHold "alice" 0 2).2.1 0 0 = some ⟨"A", true, true⟩ ∧
    getCards (flip demoHold "alice" 0 2).2.1 0 2 =
      some { Card.mk "A" false false with faceUp := true, busy := true } ∧
    (flip (flip demoHold "alice" 0 2).2.1 "alice" 0 1).1 = .ok ∧
    getCards (flip (flip demoHold "alice" 0 2).2.1 "alice" 0 1).2.1 0 0 = none ∧
    getCards (flip (flip demoHold "alice" 0 2).2.1 "alice" 0 1).2.1 0 2 = none ∧
    renderCell (flip (flip demoHold "alice" 0 2).2.1 "alice" 0 1).2.1 "alice" 0 0 =
      "none" ∧
    renderCell (flip (flip demoHold "alice" 0 2).2.1 "alice" 0 1).2.1 "alice" 0 2 =
      "none" :=
  flip_match_pair_lifecycle demoHold "alice" ⟨0, 0⟩ 0 2 0 1
    ⟨"A", true, true⟩ ⟨"A", false, false⟩ ⟨"B", false, false⟩
    (by decide) (by decide) (by decide) (by decide) (by decide) (by decide)
    (by decide) (by decide) (by decide) (by decide) (by decide)
    (by decide) (by decide) (by decide) (by decide)

/-- C3: a player who flips two cells with unequal values in one turn leaves
both rendered `up <value>` (not `my`) immediately after the second flip; on
that player's next first-card flip both turn face down (`down ?`) — except
that when another player has meanwhile claimed the second cell, only the
unclaimed cell turns face down: the claimed cell stays face up, rendered
`up <value>` to the original player and `my <value>` to the claimant. -/
theorem flip_mismatch_pair_lifecycle (s : BoardState) (p q : String)
    (pos1 : Pos) (r2 c2 r3 c3 : Nat) (card1 card2 card3 : Card)
    (hp : p ∈ s.players) (hqP : q ∈ s.players) (hqp : q ≠ p)
    (hst : getAssoc s.turnStack p = some [pos1])
    (hqu : getAssoc s.removalQueue p = some [])
    (hstQ : getAssoc s.turnStack q = some [])
    (hquQ : getAssoc s.removalQueue q = some [])
    (hc1 : getCards s pos1.row pos1.col = some card1)
    (hb1 : card1.busy = true) (hf1 : card1.faceUp = true)
    (hc2 : getCards s r2 c2 = some card2) (hb2 : card2.busy = false)
    (hval : card1.value ≠ card2.value)
    (hne12 : pos1 ≠ Pos.mk r2 c2)
    (hflat12 : pos1.row * s.cols + pos1.col ≠ r2 * s.cols + c2)
    (hc3 : getCards s r3 c3 = some card3) (hb3 : card3.busy = false)
    (hflat31 : r3 * s.cols + c3 ≠ pos1.row * s.cols + pos1.col)
    (hflat32 : r3 * s.cols + c3 ≠ r2 * s.cols + c2) :
    (flip s p r2 c2).1 = .ok ∧
    renderCell (flip s p r2 c2).2.1 p pos1.row pos1.col = "up " ++ card1.value ∧
    renderCell (flip s p r2 c2).2.1 p r2 c2 = "up " ++ card2.value ∧
    (flip (flip s p r2 c2).2.1 p r3 c3).1 = .ok ∧
    renderCell (flip (flip s p r2 c2).2.1 p r3 c3).2.1 p pos1.row pos1.col =
      "down ?" ∧
    renderCell (flip (flip s p r2 c2).2.1 p r3 c3).2.1 p r2 c2 = "down ?" ∧
    (flip (flip s p r2 c2).2.1 q r2 c2).1 = .ok ∧
    (flip (flip (flip s p r2 c2).2.1 q r2 c2).2.1 p r3 c3).1 = .ok ∧
    renderCell (flip (flip (flip s p r2 c2).2.1 q r2 c2).2.1 p r3 c3).2.1 p
      pos1.row pos1.col = "down ?" ∧
    renderCell (flip (flip (flip s p r2 c2).2.1 q r2 c2).2.1 p r3 c3).2.1 p
      r2 c2 = "up " ++ card2.value ∧
    renderCell (flip (flip (flip s p r2 c2).2.1 q r2 c2).2.1 p r3 c3).2.1 q
      r2 c2 = "my " ++ card2.value := by
  have hpne32 : Pos.mk r3 c3 ≠ Pos.mk r2 c2 := by
    intro h
    injection h with h1 h2
    exact hflat32 (by rw [h1, h2])
  obtain ⟨hok1, hst1, hq1, hc1', hc2', hev1, hcols1, hplayers1⟩ :=
    flip_second_mismatch s p r2 c2 pos1 card1 card2
      hp hst hqu hc1 hb1 hf1 hc2 hb2 hne12 hflat12 hval
  obtain ⟨hfrS1, hfrC1⟩ :=
    flip_second_mismatch_frame s p r2 c2 pos1 card1 card2
      hp hst hqu hc1 hb1 hf1 hc2 hb2 hne12 hflat12 hval
  set s1 := (flip s p r2 c2).2.1 with hs1
  have hp1 : p ∈ s1.players := by rw [hplayers1]; exact hp
  have hc3' : getCards s1 r3 c3 = some card3 := by
    rw [hfrC1 r3 c3 hflat31 hflat32]; exact hc3
  -- part 1 renderings
  have hr1 : renderCell s1 p pos1.row pos1.col = "up " ++ card1.value := by
    simp [renderCell, hc1', hf1, stackOf, hst1]
  have hr2 : renderCell s1 p r2 c2 = "up " ++ card2.value := by
    simp [renderCell, hc2', stackOf, hst1]
  -- part 2a: drain both backlog cells on the next first-card flip
  obtain ⟨hok2, hd1, hd2, hc3'', hst2, hq2, hev2, hcols2, hplayers2⟩ :=
    flip_newTurn_drain2 s1 p r3 c3 pos1 (Pos.mk r2 c2)
      { card1 with busy := false } { card2 with faceUp := true, busy := false } card3
      hp1 hst1 hq1 hc1' rfl (by simpa using hc2') rfl hc3' hb3
      (by rw [hcols1]; exact Ne.symm hflat31)
      (by rw [hcols1]; simpa using Ne.symm hflat32)
      (by rw [hcols1]; simpa using Ne.symm hflat12)
  have hr2a1 : renderCell (flip s1 p r3 c3).2.1 p pos1.row pos1.col = "down ?" := by
    simp [renderCell, hd1]
  have hr2a2 : renderCell (flip s1 p r3 c3).2.1 p r2 c2 = "down ?" := by
    have h2 : getCards (flip s1 p r3 c3).2.1 r2 c2 =
        some { card2 with faceUp := false, busy := false } := by simpa using hd2
    simp [renderCell, h2]
  -- part 2b: q claims the second cell, then p starts a new turn
  have hqP1 : q ∈ s1.players := by rw [hplayers1]; exact hqP
  have hstQ1 : getAssoc s1.turnStack q = some [] := by
    rw [(hfrS1 q hqp).1]; exact hstQ
  have hquQ1 : getAssoc s1.removalQueue q = some [] := by
    rw [(hfrS1 q hqp).2, hquQ]; rfl
  have htake := flip_first_take s1 q r2 c2 { card2 with faceUp := true, busy := false }
    hqP1 hstQ1 hquQ1 hc2' rfl
  have hokB : (flip s1 q r2 c2).1 = .ok := by rw [htake]
  set sB := (flip s1 q r2 c2).2.1 with hsB
  have hsBeq : sB = processRemovalQueue
      (setStack (updateCard s1 r2 c2 (fun d => { d with faceUp := true, busy := true }))
        q [⟨r2, c2⟩]) r2 c2 := by rw [hsB, htake]
  have hcolsB : sB.cols = s.cols := by rw [hsBeq]; simp [hcols1]
  have hpB : p ∈ sB.players := by rw [hsBeq]; simpa [hplayers1] using hp
  have hstB : getAssoc sB.turnStack p = some [] := by
    rw [hsBeq]
    simp only [processRemovalQueue_turnStack, setStack_turnStack, updateCard_turnStack]
    rw [getAssoc_setAssoc_ne _ _ _ _ (Ne.symm hqp)]
    exact hst1
  have hquB : getAssoc sB.removalQueue p = some [pos1] := by
    rw [hsBeq]
    simp only [getAssoc_processRemovalQueue, setStack_removalQueue, updateCard_removalQueue]
    rw [hq1]
    simp [posHit_eq, hne12]
  have hcB1 : getCards sB pos1.row pos1.col = some { card1 with busy := false } := by
    rw [hsBeq]
    simp only [getCards_processRemovalQueue, getCards_setStack]
    rw [getCards_updateCard, if_neg (by rw [hcols1]; exact hflat12)]
    exact hc1'
  have hcB2 : getCards sB r2 c2 = some { card2 with faceUp := true, busy := true } := by
    rw [hsBeq]
    simp only [getCards_processRemovalQueue, getCards_setStack]
    rw [getCards_updateCard, if_pos rfl, hc2']
    rfl
  have hcB3 : getCards sB r3 c3 = some card3 := by
    rw [hsBeq]
    simp only [getCards_processRemovalQueue, getCards_setStack]
    rw [getCards_updateCard, if_neg (by rw [hcols1]; exact hflat32)]
    exact hc3'
  have hstQB : getAssoc sB.turnStack q = some [⟨r2, c2⟩] := by
    rw [hsBeq]
    simp only [processRemovalQueue_turnStack, setStack_turnStack, updateCard_turnStack]
    exact getAssoc_setAssoc_self _ _ _
  obtain ⟨hok3, hd1', hc3f, hst3, hq3, hev3, hcols3, hplayers3⟩ :=
    flip_newTurn_drain1 sB p r3 c3 pos1 { card1 with busy := false } card3
      hpB hstB hquB hcB1 rfl hcB3 hb3
      (by rw [hcolsB]; exact Ne.symm hflat31)
  obtain ⟨hfrS3, hfrC3⟩ :=
    flip_newTurn_drain1_frame sB p r3 c3 pos1 { card1 with busy := false } card3
      hpB hstB hquB hcB1 rfl hcB3 hb3
      (by rw [hcolsB]; exact Ne.symm hflat31)
  have hG : getCards (flip sB p r3 c3).2.1 r2 c2 =
      some { card2 with faceUp := true, busy := true } := by
    rw [hfrC3 r2 c2 (by rw [hcolsB]; exact Ne.symm hflat12)
      (by rw [hcolsB]; exact Ne.symm hflat32)]
    exact hcB2
  have hr3a : renderCell (flip sB p r3 c3).2.1 p pos1.row pos1.col = "down ?" := by
    simp [renderCell, hd1']
  have hr3b : renderCell (flip sB p r3 c3).2.1 p r2 c2 = "up " ++ card2.value := by
    simp [renderCell, hG, stackOf, hst3, posHit_eq, hpne32]
  have hr3c : renderCell (flip sB p r3 c3).2.1 q r2 c2 = "my " ++ card2.value := by
    have hsq : getAssoc (flip sB p r3 c3).2.1.turnStack q = some [⟨r2, c2⟩] := by
      rw [hfrS3 q hqp]; exact hstQB
    simp [renderCell, hG, stackOf, hsq, posHit_eq]
  exact ⟨hok1, hr1, hr2, hok2, hr2a1, hr2a2, hokB, hok3, hr3a, hr3b, hr3c⟩

theorem flip_mismatch_pair_lifecycle_witness :
    (flip demoHold "alice" 0 1).1 = .ok ∧
    renderCell (flip demoHold "alice" 0 1).2.1 "alice" 0 0 = "up " ++ "A" ∧
    renderCell (flip demoHold "alice" 0 1).2.1 "alice" 0 1 = "up " ++ "B" ∧
    (flip (flip demoHold "alice" 0 1).2.1 "alice" 0 3).1 = .ok ∧
    renderCell (flip (flip demoHold "alice" 0 1).2.1 "alice" 0 3).2.1 "alice" 0 0 =
      "down ?" ∧
    renderCell (flip (flip demoHold "alice" 0 1).2.1 "alice" 0 3).2.1 "alice" 0 1 =
      "down ?" ∧
    (flip (flip demoHold "alice" 0 1).2.1 "bob" 0 1).1 = .ok ∧
    (flip (flip (flip demoHold "alice" 0 1).2.1 "bob" 0 1).2.1 "alice" 0 3).1 = .ok ∧
    renderCell (flip (flip (flip demoHold "alice" 0 1).2.1 "bob" 0 1).2.1
      "alice" 0 3).2.1 "alice" 0 0 = "down ?" ∧
    renderCell (flip (flip (flip demoHold "alice" 0 1).2.1 "bob" 0 1).2.1
      "alice" 0 3).2.1 "alice" 0 1 = "up " ++ "B" ∧
    renderCell (flip (flip (flip demoHold "alice" 0 1).2.1 "bob" 0 1).2.1
      "alice" 0 3).2.1 "bob" 0 1 = "my " ++ "B" :=
  flip_mismatch_pair_lifecycle demoHold "alice" "bob" ⟨0, 0⟩ 0 1 0 3
    ⟨"A", true, true⟩ ⟨"B", false, false⟩ ⟨"B", false, false⟩
    (by decide) (by decide) (by decide) (by decide) (by decide) (by decide)
    (by decide) (by decide) (by decide) (by decide) (by decide) (by decide)
    (by decide) (by decide) (by decide) (by decide) (by decide) (by decide)
    (by decide)

/-- C6: a map call with a pure transform f invokes f exactly once per
distinct card value present on the board at call time (the invocation list
is duplicate-free and holds exactly the values of present cells), the
replacement f v is applied to every cell holding value v, and two cells with
equal values before the call still have equal values after it. -/
theorem mapOp_once_per_distinct_value (s : BoardState) (p : String)
    (f : String → String) (hp : p ∈ s.players) :
    mapOp s p f = (.ok (mapApply s f, distinctValues s), [.broadcast]) ∧
    (distinctValues s).Nodup ∧
    (∀ v, v ∈ distinctValues s ↔
      ∃ r c card, r < s.rows ∧ c < s.cols ∧ getCards s r c = some card ∧
        card.value = v) ∧
    (∀ r c card, r < s.rows → c < s.cols → getCards s r c = some card →
      getCards (mapApply s f) r c = some { card with value := f card.value }) ∧
    (∀ r c card r' c' card', r < s.rows → c < s.cols → r' < s.rows → c' < s.cols →
      getCards s r c = some card → getCards s r' c' = some card' →
      card.value = card'.value →
      ∃ d d', getCards (mapApply s f) r c = some d ∧
        getCards (mapApply s f) r' c' = some d' ∧ d.value = d'.value) := by
  have hmain : ∀ r c card, r < s.rows → c < s.cols → getCards s r c = some card →
      getCards (mapApply s f) r c = some { card with value := f card.value } := by
    intro r c card hr hc hcard
    obtain ⟨_, hg⟩ :=
      getCards_mapApply_aux s f (distinctValues s) r c hr hc card hcard s rfl
    rw [show mapApply s f =
      (distinctValues s).foldl (fun a v => transformGroup s f v a) s from rfl, hg]
    have hmem : card.value ∈ distinctValues s := by
      rw [distinctValues, mem_insertionKeys]
      exact ⟨(mem_presentValues s card.value).2 ⟨r, c, card, hr, hc, hcard, rfl⟩,
        by simp⟩
    rw [if_pos hmem, hcard]
    rfl
  refine ⟨by simp [mapOp, hp], insertionKeys_nodup _ _, ?_, hmain, ?_⟩
  · intro v
    rw [distinctValues, mem_insertionKeys]
    simp [mem_presentValues]
  · intro r c card r' c' card' hr hc hr' hc' hcard hcard' hvv
    exact ⟨_, _, hmain r c card hr hc hcard, hmain r' c' card' hr' hc' hcard',
      by simp [hvv]⟩

theorem mapOp_once_per_distinct_value_witness :
    ("alice" ∈ demo0.players ∧
      mapOp demo0 "alice" (fun v => v ++ "!") =
        (.ok (mapApply demo0 (fun v => v ++ "!"), distinctValues demo0),
         [.broadcast])) ∧
    distinctValues demo0 = ["A", "B"] ∧
    getCards (mapApply demo0 (fun v => v ++ "!")) 0 0 = some ⟨"A!", false, false⟩ ∧
    getCards (mapApply demo0 (fun v => v ++ "!")) 0 1 = some ⟨"B!", false, false⟩ :=
  ⟨⟨by decide,
    (mapOp_once_per_distinct_value demo0 "alice" (fun v => v ++ "!") (by decide)).1⟩,
   by decide, by decide, by decide⟩

theorem mem_zip_self {α : Type} (l : List α) : ∀ pr ∈ l.zip l, pr.1 = pr.2 := by
  induction l with
  | nil => intro pr h; simp at h
  | cons a t ih =>
    intro pr h
    rcases List.mem_cons.1 h with h | h
    · rw [h]
    · exact ih pr h

theorem hasBoardChanged_self (o : List CellSnap) : hasBoardChanged o o = false := by
  unfold hasBoardChanged
  rw [Bool.or_eq_false_iff]
  refine ⟨List.any_eq_false.2 ?_, by simp⟩
  intro pr hpr
  rw [mem_zip_self o pr hpr]
  simp [snapChanged]

theorem cellList_length (s : BoardState) : (cellList s).length = s.rows * s.cols := by
  simp [cellList, Function.comp_def, List.map_const', List.sum_replicate,
    smul_eq_mul, Nat.mul_comm]

theorem boardSnapshot_length (s : BoardState) :
    (boardSnapshot s).length = s.rows * s.cols := by
  rw [boardSnapshot, List.length_map, cellList_length]

/-- C9: the watch loop, driven by the board states seen at successive change
broadcasts, does not resolve while the per-cell visible state equals the
snapshot taken at call time (a spurious wakeup re-snapshots and keeps
waiting), and when it resolves the board differs from the pre-call snapshot —
in at least one cell, whenever the resolving state has the board dimensions
(which every board operation preserves). -/
theorem watch_resolves_only_on_change (s0 : BoardState) (p : String)
    (trace : List BoardState) :
    ((∀ t ∈ trace, boardSnapshot t = (watchRegister s0 p).2) →
      watchAwait (watchRegister s0 p).2 trace = none) ∧
    (∀ t', watchAwait (watchRegister s0 p).2 trace = some t' →
      boardSnapshot t' ≠ (watchRegister s0 p).2 ∧
      (t'.rows = (watchRegister s0 p).1.rows → t'.cols = (watchRegister s0 p).1.cols →
        ∃ i, (boardSnapshot t').get? i ≠ ((watchRegister s0 p).2).get? i)) := by
  have hsnap : (watchRegister s0 p).2 = boardSnapshot (watchRegister s0 p).1 := rfl
  constructor
  · intro h
    induction trace with
    | nil => rfl
    | cons t rest ih =>
      have ht := h t (List.mem_cons_self t rest)
      unfold watchAwait
      rw [ht, hsnap, hasBoardChanged_self]
      exact ih (fun u hu => h u (List.mem_cons_of_mem t hu))
  · induction trace with
    | nil => intro t' h; exact absurd h (by simp [watchAwait])
    | cons t rest ih =>
      intro t' h
      unfold watchAwait at h
      by_cases hch : hasBoardChanged (watchRegister s0 p).2 (boardSnapshot t) = true
      · rw [if_pos hch] at h
        have ht : t = t' := by injection h
        subst ht
        have hne : boardSnapshot t ≠ (watchRegister s0 p).2 := by
          intro heq
          rw [heq, hsnap, hasBoardChanged_self] at hch
          exact Bool.false_ne_true hch
        refine ⟨hne, ?_⟩
        intro hrows hcols
        by_contra hno
        push_neg at hno
        apply hne
        apply List.ext_get?
        intro i
        by_cases hi : i < (boardSnapshot t).length
        · exact hno i
        · rw [List.get?_eq_none.2 (Nat.le_of_not_lt hi), eq_comm,
            List.get?_eq_none.2 ?_]
          rw [hsnap, boardSnapshot_length]
          rw [boardSnapshot_length, hrows, hcols] at hi
          exact Nat.le_of_not_lt hi
      · rw [if_neg hch] at h
        exact ih t' h

theorem watch_resolves_only_on_change_witness :
    (∀ t ∈ ([demo0, demo0] : List BoardState),
        boardSnapshot t = (watchRegister demo0 "alice").2) ∧
    watchAwait (watchRegister demo0 "alice").2 [demo0, demo0] = none ∧
    (watchAwait (watchRegister demo0 "alice").2
        [demo0, (flip demo0 "alice" 0 0).2.1] =
      some (flip demo0 "alice" 0 0).2.1 ∧
     boardSnapshot (flip demo0 "alice" 0 0).2.1 ≠ (watchRegister demo0 "alice").2) :=
  ⟨by decide,
   (watch_resolves_only_on_change demo0 "alice" [demo0, demo0]).1 (by decide),
   by decide,
   ((watch_resolves_only_on_change demo0 "alice"
       [demo0, (flip demo0 "alice" 0 0).2.1]).2
     (flip demo0 "alice" 0 0).2.1 (by decide)).1⟩

end Scramble
